import Mathlib

set_option maxHeartbeats 1000000
set_option maxRecDepth 100000

/-!
Verification of the beanbeaver receipt pipeline against its specification.

Each section shallowly embeds one part of the Python source:

* `BB.Matcher`    — `src/receipt/matcher.py` (receipt/transaction matching)
* `BB.Writer`     — `src/ledger_reader/writer.py` plus the pure helpers it
  uses from `src/domain/match.py` (atomic ledger mutation)
* `BB.Formatter`  — the posting assembly of `format_parsed_receipt` in
  `src/receipt/formatter.py`
* `BB.Grouping`   — `_group_detections_by_y_overlap` and `_boxes_overlap_y`
  in `src/receipt/ocr_helpers.py`
* `BB.Categories` — `src/receipt/item_categories.py` (fuzzy categorizer)
* `BB.TextItems`  — `_extract_items` in
  `src/receipt/ocr_parser/items_text_parser.py` and its helpers from
  `src/receipt/ocr_parser/common.py`

Modelling conventions, used throughout:

* Python `Decimal` and `float` values are modelled as exact rationals (`ℚ`);
  the only float rounding in the modelled code paths is the final `float()`
  cast of already-small quotients, which the claims do not depend on.
* Python `str` is modelled as `String`/`List Char`; `str.upper`, `isalpha`
  and `\w` are modelled on the ASCII range, which covers the receipt data
  the parsers are written for.
* Python `list.sort` (Timsort) is a stable sort and is modelled with the
  stable `List.insertionSort`.
* Mutable state threaded through loops (consumed-index sets, accumulating
  item lists) becomes explicit recursion parameters.
-/

namespace BB

/-! ## Shared small helpers -/

/-- Length of the longest common prefix of two character lists (the
character-by-character loop in `_merchant_similarity`). -/
def commonPrefixLen : List Char → List Char → Nat
  | a :: as, b :: bs => if a = b then commonPrefixLen as bs + 1 else 0
  | _, _ => 0

theorem commonPrefixLen_le_left : ∀ (a b : List Char), commonPrefixLen a b ≤ a.length := by
  intro a
  induction a with
  | nil => intro b; cases b <;> simp [commonPrefixLen]
  | cons x xs ih =>
    intro b
    cases b with
    | nil => simp [commonPrefixLen]
    | cons y ys =>
      simp only [commonPrefixLen, List.length_cons]
      split
      · exact Nat.succ_le_succ (ih ys)
      · exact Nat.zero_le _

theorem commonPrefixLen_le_right : ∀ (a b : List Char), commonPrefixLen a b ≤ b.length := by
  intro a
  induction a with
  | nil => intro b; cases b <;> simp [commonPrefixLen]
  | cons x xs ih =>
    intro b
    cases b with
    | nil => simp [commonPrefixLen]
    | cons y ys =>
      simp only [commonPrefixLen, List.length_cons]
      split
      · exact Nat.succ_le_succ (ih ys)
      · exact Nat.zero_le _

/-! ## Domain model — `src/domain/receipt.py` -/

/-- `ReceiptItem` from `src/domain/receipt.py`.  `price` is the authoritative
line total (a `Decimal`, modelled as `ℚ`); `quantity` is informational only. -/
structure ReceiptItem where
  description : String
  price : ℚ
  quantity : Nat := 1
  category : Option String := none
deriving DecidableEq, Repr

/-- `Receipt` from `src/domain/receipt.py`.  The `datetime.date` field is
modelled as a day ordinal (`Int`), so day differences subtract directly. -/
structure Receipt where
  merchant : String
  dateDay : Int
  total : ℚ
  date_is_placeholder : Bool := false
  items : List ReceiptItem := []
  tax : Option ℚ := none
  subtotal : Option ℚ := none
  raw_text : String := ""
deriving DecidableEq, Repr

namespace Matcher

/-! ## Matcher — `src/receipt/matcher.py` -/

/-- One beancount posting as the matcher reads it: only `posting.units.number`
is consulted, and `units` may be missing. -/
structure Posting where
  units : Option ℚ
deriving DecidableEq, Repr

/-- A beancount transaction as the matcher reads it.  `meta.get("filename")`
and `meta.get("lineno")` are modelled as optional fields. -/
structure Transaction where
  date : Int
  payee : Option String
  postings : List Posting
  metaFilename : Option String := none
  metaLineno : Option Nat := none
deriving DecidableEq, Repr

/-- `MatchConfig` from `src/receipt/matcher.py`. -/
structure MatchConfig where
  date_tolerance_days : Int := 3
  amount_tolerance : ℚ := 1/10
  amount_tolerance_percent : ℚ := 1/100
deriving DecidableEq, Repr

/-- The default `MatchConfig()` (3 days, $0.10, 1%). -/
def defaultMatchConfig : MatchConfig := {}

/-- `MatchResult` from `src/receipt/matcher.py`.  The human-readable
`match_details` string is not modelled; no claim depends on it. -/
structure MatchResult where
  transaction : Transaction
  file_path : String
  line_number : Nat
  confidence : ℚ
deriving DecidableEq, Repr

/-- `_merchant_similarity` from `src/receipt/matcher.py`.  The inner
regex-based `normalize` closure and the `re.findall(r"[A-Z]{3,}", s.upper())`
word extraction are taken as parameters (`normalize`, `words`): the claims
about this function hold for every choice of both, so the theorems below
quantify over them instead of fixing one regex model. -/
def merchantSimilarity (normalize : String → String) (words : String → Finset String)
    (receipt_merchant txn_payee : String) : ℚ :=
  let r := (normalize receipt_merchant).toList
  let t := (normalize txn_payee).toList
  if r = [] ∨ t = [] then 0
  else if r <:+: t ∨ t <:+: r then 9/10
  else
    let minLen := min r.length t.length
    let cp := commonPrefixLen r t
    if 4 ≤ cp then 1/2 + 2/5 * ((cp : ℚ) / (minLen : ℚ))
    else
      let rw := words receipt_merchant
      let tw := words txn_payee
      if rw.Nonempty ∧ tw.Nonempty ∧ (rw ∩ tw).Nonempty then
        3/10 + 2/5 * (((rw ∩ tw).card : ℚ) / ((rw ∪ tw).card : ℚ))
      else 0

/-- The date branch of `_try_match` (matcher.py lines 231-235): full 0.4
credit at a 0-day difference, otherwise `0.4 * (1 - diff / (tolerance + 1))`. -/
def dateScore (tolerance : Int) (dateDiff : Nat) : ℚ :=
  if dateDiff = 0 then 2/5 else 2/5 * (1 - (dateDiff : ℚ) / ((tolerance : ℚ) + 1))

/-- The amount branch of `_try_match` (matcher.py lines 255-260): full 0.4
credit at an exact amount, otherwise `0.4 * (1 - diff / tolerance)`. -/
def amountScore (amountDiff tolerance : ℚ) : ℚ :=
  if amountDiff = 0 then 2/5 else 2/5 * (1 - amountDiff / tolerance)

/-- The charge-amount scan of `_try_match` (matcher.py lines 239-244): the
absolute value of the first posting with a negative `units.number`. -/
def firstNegAmount : List Posting → Option ℚ
  | [] => none
  | p :: ps =>
    match p.units with
    | some n => if n < 0 then some |n| else firstNegAmount ps
    | none => firstNegAmount ps

/-- `_try_match` from `src/receipt/matcher.py`. -/
def tryMatch (normalize : String → String) (words : String → Finset String)
    (receipt : Receipt) (txn : Transaction) (config : MatchConfig) : Option MatchResult :=
  let dateContribution : Option ℚ :=
    if receipt.date_is_placeholder then some 0
    else
      let dateDiff := (txn.date - receipt.dateDay).natAbs
      if config.date_tolerance_days < (dateDiff : Int) then none
      else some (dateScore config.date_tolerance_days dateDiff)
  match dateContribution with
  | none => none
  | some dc =>
    match firstNegAmount txn.postings with
    | none => none
    | some txnAmount =>
      let amountDiff := |txnAmount - receipt.total|
      let amountTolerance :=
        max config.amount_tolerance (receipt.total * config.amount_tolerance_percent)
      if amountTolerance < amountDiff then none
      else
        let merchantScore :=
          merchantSimilarity normalize words receipt.merchant (txn.payee.getD "")
        if merchantScore < 3/10 then none
        else
          some { transaction := txn
                 file_path := txn.metaFilename.getD "unknown"
                 line_number := txn.metaLineno.getD 0
                 confidence := dc + amountScore amountDiff amountTolerance
                               + 1/5 * merchantScore }

/-- `match_receipt_to_transactions` from `src/receipt/matcher.py`: try every
candidate, keep the hits, sort by confidence descending (stable, like
Python's `list.sort(..., reverse=True)`). -/
def matchReceiptToTransactions (normalize : String → String) (words : String → Finset String)
    (receipt : Receipt) (transactions : List Transaction) (config : MatchConfig) :
    List MatchResult :=
  let results := transactions.filterMap (fun txn => tryMatch normalize words receipt txn config)
  List.insertionSort (fun a b => b.confidence ≤ a.confidence) results

/-! ### Bounds on the scoring helpers -/

theorem merchantSimilarity_nonneg (normalize : String → String) (words : String → Finset String)
    (a b : String) : 0 ≤ merchantSimilarity normalize words a b := by
  simp only [merchantSimilarity]
  split
  · exact le_refl 0
  split
  · norm_num
  split
  · have h1 : (0 : ℚ) ≤ (commonPrefixLen (normalize a).toList (normalize b).toList : ℚ) /
        ((min (normalize a).toList.length (normalize b).toList.length : Nat) : ℚ) :=
      div_nonneg (Nat.cast_nonneg _) (Nat.cast_nonneg _)
    nlinarith
  split
  · have h1 : (0 : ℚ) ≤ ((words a ∩ words b).card : ℚ) / (((words a ∪ words b).card : Nat) : ℚ) :=
      div_nonneg (Nat.cast_nonneg _) (Nat.cast_nonneg _)
    nlinarith
  · exact le_refl 0

theorem merchantSimilarity_le (normalize : String → String) (words : String → Finset String)
    (a b : String) : merchantSimilarity normalize words a b ≤ 9/10 := by
  simp only [merchantSimilarity]
  split
  · norm_num
  rename_i hne
  push_neg at hne
  split
  · exact le_refl _
  split
  · rename_i hcp
    have hmin : 1 ≤ min (normalize a).toList.length (normalize b).toList.length := by
      have ha : (normalize a).toList ≠ [] := hne.1
      have hb : (normalize b).toList ≠ [] := hne.2
      have ha' : 0 < (normalize a).toList.length := List.length_pos.mpr ha
      have hb' : 0 < (normalize b).toList.length := List.length_pos.mpr hb
      exact le_min ha' hb'
    have hle : commonPrefixLen (normalize a).toList (normalize b).toList ≤
        min (normalize a).toList.length (normalize b).toList.length :=
      le_min (commonPrefixLen_le_left _ _) (commonPrefixLen_le_right _ _)
    have h1 : (commonPrefixLen (normalize a).toList (normalize b).toList : ℚ) /
        ((min (normalize a).toList.length (normalize b).toList.length : Nat) : ℚ) ≤ 1 := by
      rw [div_le_one (by exact_mod_cast Nat.lt_of_lt_of_le Nat.zero_lt_one hmin)]
      exact_mod_cast hle
    nlinarith
  split
  · rename_i hw
    have hsub : (words a ∩ words b).card ≤ (words a ∪ words b).card :=
      Finset.card_le_card Finset.inter_subset_union
    have hpos : 0 < (words a ∪ words b).card := by
      rcases hw.2.2 with ⟨x, hx⟩
      exact Finset.card_pos.mpr ⟨x, Finset.mem_union_left _ (Finset.mem_inter.mp hx).1⟩
    have h1 : (((words a ∩ words b).card : ℚ)) / (((words a ∪ words b).card : Nat) : ℚ) ≤ 1 := by
      rw [div_le_one (by exact_mod_cast hpos)]
      exact_mod_cast hsub
    have h0 : (0:ℚ) ≤ (((words a ∩ words b).card : ℚ)) / (((words a ∪ words b).card : Nat) : ℚ) :=
      div_nonneg (Nat.cast_nonneg _) (Nat.cast_nonneg _)
    nlinarith
  · norm_num

theorem dateScore_bounds (tolerance : Int) (dateDiff : Nat)
    (h : (dateDiff : Int) ≤ tolerance) :
    0 ≤ dateScore tolerance dateDiff ∧ dateScore tolerance dateDiff ≤ 2/5 := by
  unfold dateScore
  split
  · norm_num
  rename_i hne
  have h1 : (1 : ℚ) ≤ (tolerance : ℚ) + 1 := by
    have : (0 : ℚ) ≤ (tolerance : ℚ) := by
      have : (0 : Int) ≤ tolerance := le_trans (Int.ofNat_nonneg dateDiff) h
      exact_mod_cast this
    linarith
  have hd1 : (1 : ℚ) ≤ (dateDiff : ℚ) := by
    have : 1 ≤ dateDiff := Nat.one_le_iff_ne_zero.mpr hne
    exact_mod_cast this
  have hdt : (dateDiff : ℚ) ≤ (tolerance : ℚ) := by exact_mod_cast h
  have hfrac1 : (dateDiff : ℚ) / ((tolerance : ℚ) + 1) ≤ 1 := by
    rw [div_le_one (by linarith)]
    linarith
  have hfrac0 : 0 ≤ (dateDiff : ℚ) / ((tolerance : ℚ) + 1) :=
    div_nonneg (by linarith) (by linarith)
  constructor <;> nlinarith

theorem amountScore_bounds (amountDiff tolerance : ℚ)
    (h0 : 0 ≤ amountDiff) (h : amountDiff ≤ tolerance) :
    0 ≤ amountScore amountDiff tolerance ∧ amountScore amountDiff tolerance ≤ 2/5 := by
  unfold amountScore
  split
  · norm_num
  rename_i hne
  have hpos : 0 < amountDiff := lt_of_le_of_ne h0 (Ne.symm hne)
  have htol : 0 < tolerance := lt_of_lt_of_le hpos h
  have hfrac1 : amountDiff / tolerance ≤ 1 := by
    rw [div_le_one htol]; exact h
  have hfrac0 : 0 ≤ amountDiff / tolerance := div_nonneg h0 (le_of_lt htol)
  constructor <;> nlinarith

/-- Everything `tryMatch` guarantees about a returned `MatchResult`:
it is built from the candidate transaction, the merchant floor, the date
window, the amount window, and the exact confidence sum all hold. -/
theorem tryMatch_some_spec (normalize : String → String) (words : String → Finset String)
    (receipt : Receipt) (txn : Transaction) (config : MatchConfig) (m : MatchResult)
    (h : tryMatch normalize words receipt txn config = some m) :
    m.transaction = txn ∧
    3/10 ≤ merchantSimilarity normalize words receipt.merchant (txn.payee.getD "") ∧
    (receipt.date_is_placeholder = false →
      ((txn.date - receipt.dateDay).natAbs : Int) ≤ config.date_tolerance_days) ∧
    ∃ amt, firstNegAmount txn.postings = some amt ∧
      |amt - receipt.total| ≤
        max config.amount_tolerance (receipt.total * config.amount_tolerance_percent) ∧
      m.confidence =
        (if receipt.date_is_placeholder then 0
         else dateScore config.date_tolerance_days (txn.date - receipt.dateDay).natAbs)
        + amountScore (|amt - receipt.total|)
            (max config.amount_tolerance (receipt.total * config.amount_tolerance_percent))
        + 1/5 * merchantSimilarity normalize words receipt.merchant (txn.payee.getD "") := by
  unfold tryMatch at h
  rcases hpl : receipt.date_is_placeholder with _ | _ <;> simp only [hpl] at h
  · -- date_is_placeholder = false
    rcases hwin : decide (config.date_tolerance_days < ((txn.date - receipt.dateDay).natAbs : Int))
      with _ | _
    · have hwin' : ¬ config.date_tolerance_days < ((txn.date - receipt.dateDay).natAbs : Int) :=
        of_decide_eq_false hwin
      simp only [if_neg hwin', Bool.false_eq_true, if_false] at h
      rcases hfn : firstNegAmount txn.postings with _ | amt <;> simp only [hfn] at h
      · exact absurd h (by simp)
      · by_cases hamt : max config.amount_tolerance (receipt.total * config.amount_tolerance_percent)
            < |amt - receipt.total|
        · simp only [if_pos hamt] at h
          exact absurd h (by simp)
        · simp only [if_neg hamt] at h
          by_cases hms : merchantSimilarity normalize words receipt.merchant (txn.payee.getD "")
              < 3/10
          · simp only [if_pos hms] at h
            exact absurd h (by simp)
          · simp only [if_neg hms] at h
            have hm := (Option.some.inj h).symm
            subst hm
            refine ⟨rfl, not_lt.mp hms, fun _ => not_lt.mp hwin', amt, rfl, not_lt.mp hamt, ?_⟩
            simp
    · have hwin' : config.date_tolerance_days < ((txn.date - receipt.dateDay).natAbs : Int) :=
        of_decide_eq_true hwin
      simp only [if_pos hwin'] at h
      exact absurd h (by simp)
  · -- date_is_placeholder = true
    rcases hfn : firstNegAmount txn.postings with _ | amt <;> simp only [hfn] at h
    · exact absurd h (by simp)
    · by_cases hamt : max config.amount_tolerance (receipt.total * config.amount_tolerance_percent)
          < |amt - receipt.total|
      · simp only [if_pos hamt] at h
        exact absurd h (by simp)
      · simp only [if_neg hamt] at h
        by_cases hms : merchantSimilarity normalize words receipt.merchant (txn.payee.getD "")
            < 3/10
        · simp only [if_pos hms] at h
          exact absurd h (by simp)
        · simp only [if_neg hms] at h
          have hm := (Option.some.inj h).symm
          subst hm
          refine ⟨rfl, not_lt.mp hms, by simp, amt, rfl, not_lt.mp hamt, ?_⟩
          simp

/-- A member of the sorted result list is a `tryMatch` hit on some candidate. -/
theorem mem_matchReceiptToTransactions (normalize : String → String)
    (words : String → Finset String) (receipt : Receipt) (transactions : List Transaction)
    (config : MatchConfig) (m : MatchResult)
    (h : m ∈ matchReceiptToTransactions normalize words receipt transactions config) :
    ∃ txn ∈ transactions, tryMatch normalize words receipt txn config = some m := by
  unfold matchReceiptToTransactions at h
  have := (List.perm_insertionSort (fun a b : MatchResult => b.confidence ≤ a.confidence) _).mem_iff.mp h
  exact List.mem_filterMap.mp this

/-- `firstNegAmount` only answers when some posting has a negative number. -/
theorem firstNegAmount_some_neg :
    ∀ (ps : List Posting) (a : ℚ), firstNegAmount ps = some a →
      ∃ p ∈ ps, ∃ q, p.units = some q ∧ q < 0 := by
  intro ps
  induction ps with
  | nil => intro a h; simp [firstNegAmount] at h
  | cons p ps ih =>
    intro a h
    unfold firstNegAmount at h
    split at h
    · rename_i n hu
      split at h
      · rename_i hn
        exact ⟨p, List.mem_cons_self _ _, n, hu, hn⟩
      · obtain ⟨q, hq, hq2, hq3⟩ := ih a h
        exact ⟨q, List.mem_cons_of_mem _ hq, hq2, hq3⟩
    · obtain ⟨q, hq, hq2, hq3⟩ := ih a h
      exact ⟨q, List.mem_cons_of_mem _ hq, hq2, hq3⟩

/-- `dateScore` is the same linear ramp in both of its branches. -/
theorem dateScore_linear (tolerance : Int) (dateDiff : Nat) :
    dateScore tolerance dateDiff =
      2/5 * (1 - (dateDiff : ℚ) / ((tolerance : ℚ) + 1)) := by
  unfold dateScore
  split
  · rename_i h
    subst h
    simp
  · rfl

/-! ### Claim theorems -/

/-- C3: every `MatchResult` returned by `match_receipt_to_transactions` has
confidence in `[0,1]`; a candidate with merchant similarity below 0.3, or a
date difference beyond the day tolerance (for a non-placeholder receipt
date), or an amount difference beyond
`max(fixed tolerance, total × percent tolerance)`, never appears in the
ranked result list. -/
theorem C3_match_results_bounded_and_filtered
    (normalize : String → String) (words : String → Finset String) (receipt : Receipt)
    (transactions : List Transaction) (config : MatchConfig) (m : MatchResult)
    (h : m ∈ matchReceiptToTransactions normalize words receipt transactions config) :
    (0 ≤ m.confidence ∧ m.confidence ≤ 1) ∧
    3/10 ≤ merchantSimilarity normalize words receipt.merchant (m.transaction.payee.getD "") ∧
    (receipt.date_is_placeholder = false →
      ((m.transaction.date - receipt.dateDay).natAbs : Int) ≤ config.date_tolerance_days) ∧
    ∃ amt, firstNegAmount m.transaction.postings = some amt ∧
      |amt - receipt.total| ≤
        max config.amount_tolerance (receipt.total * config.amount_tolerance_percent) := by
  obtain ⟨txn, _, hsome⟩ :=
    mem_matchReceiptToTransactions normalize words receipt transactions config m h
  obtain ⟨hmt, hms, hdate, amt, hfn, hamt, hconf⟩ :=
    tryMatch_some_spec normalize words receipt txn config m hsome
  rw [hmt]
  refine ⟨?_, hms, hdate, amt, hfn, hamt⟩
  have hmsle := merchantSimilarity_le normalize words receipt.merchant (txn.payee.getD "")
  have hac := amountScore_bounds (|amt - receipt.total|)
    (max config.amount_tolerance (receipt.total * config.amount_tolerance_percent))
    (abs_nonneg _) hamt
  rcases hpl : receipt.date_is_placeholder with _ | _
  · have hdc := dateScore_bounds config.date_tolerance_days
      (txn.date - receipt.dateDay).natAbs (hdate hpl)
    rw [hconf, if_neg (by simp [hpl])]
    constructor <;> nlinarith [hdc.1, hdc.2, hac.1, hac.2]
  · rw [hconf, if_pos (by simp [hpl])]
    constructor <;> nlinarith [hac.1, hac.2]

def c3Receipt : Receipt := { merchant := "COSTCO", dateDay := 0, total := 50 }

def c3Txn : Transaction := { date := 0, payee := some "COSTCO", postings := [⟨some (-50)⟩] }

def c3Result : MatchResult :=
  { transaction := c3Txn, file_path := "unknown", line_number := 0
    confidence := 2/5 + 2/5 + 1/5 * (9/10) }

theorem C3_witness :
    (c3Result ∈ matchReceiptToTransactions id (fun _ => ∅) c3Receipt [c3Txn]
      defaultMatchConfig) ∧
    (0 ≤ c3Result.confidence ∧ c3Result.confidence ≤ 1) := by
  have hmem : c3Result ∈ matchReceiptToTransactions id (fun _ => ∅) c3Receipt [c3Txn]
      defaultMatchConfig := by
    simp [matchReceiptToTransactions, tryMatch, firstNegAmount, dateScore, amountScore,
      merchantSimilarity, c3Receipt, c3Txn, c3Result, defaultMatchConfig,
      List.insertionSort, List.orderedInsert, List.infix_refl] <;> norm_num
  exact ⟨hmem,
    (C3_match_results_bounded_and_filtered id (fun _ => ∅) c3Receipt [c3Txn]
      defaultMatchConfig c3Result hmem).1⟩

/-- C10: a candidate transaction none of whose postings carries a negative
amount is never included in the matcher's results, however well its date and
payee fit. -/
theorem C10_no_negative_posting_never_matched
    (normalize : String → String) (words : String → Finset String) (receipt : Receipt)
    (transactions : List Transaction) (config : MatchConfig) (txn : Transaction)
    (htxn : txn ∈ transactions)
    (hpos : ∀ p ∈ txn.postings, ∀ q, p.units = some q → 0 ≤ q)
    (m : MatchResult)
    (hm : m ∈ matchReceiptToTransactions normalize words receipt transactions config) :
    m.transaction ≠ txn := by
  obtain ⟨t, _, hsome⟩ :=
    mem_matchReceiptToTransactions normalize words receipt transactions config m hm
  obtain ⟨hmt, _, _, amt, hfn, _, _⟩ :=
    tryMatch_some_spec normalize words receipt t config m hsome
  intro heq
  rw [hmt] at heq
  subst heq
  obtain ⟨p, hp, q, hq, hqneg⟩ := firstNegAmount_some_neg _ amt hfn
  exact absurd (hpos p hp q hq) (not_le.mpr hqneg)

def c10Receipt : Receipt := { merchant := "COSTCO", dateDay := 0, total := 50 }

def c10NegTxn : Transaction := { date := 0, payee := some "COSTCO", postings := [⟨some (-50)⟩] }

/-- A refund/credit-only candidate: its only posting is a positive amount. -/
def c10PosTxn : Transaction := { date := 0, payee := some "COSTCO", postings := [⟨some 50⟩] }

def c10Result : MatchResult :=
  { transaction := c10NegTxn, file_path := "unknown", line_number := 0
    confidence := 2/5 + 2/5 + 1/5 * (9/10) }

theorem C10_witness :
    c10PosTxn ∈ [c10NegTxn, c10PosTxn] ∧
    (c10Result ∈ matchReceiptToTransactions id (fun _ => ∅) c10Receipt [c10NegTxn, c10PosTxn]
      defaultMatchConfig) ∧
    c10Result.transaction ≠ c10PosTxn := by
  have hmem : c10Result ∈ matchReceiptToTransactions id (fun _ => ∅) c10Receipt
      [c10NegTxn, c10PosTxn] defaultMatchConfig := by
    simp [matchReceiptToTransactions, tryMatch, firstNegAmount, dateScore, amountScore,
      merchantSimilarity, c10Receipt, c10NegTxn, c10PosTxn, c10Result, defaultMatchConfig,
      List.insertionSort, List.orderedInsert, List.infix_refl] <;> norm_num
  refine ⟨by simp, hmem, ?_⟩
  exact C10_no_negative_posting_never_matched id (fun _ => ∅) c10Receipt
    [c10NegTxn, c10PosTxn] defaultMatchConfig c10PosTxn (by simp)
    (by intro p hp q hq; simp [c10PosTxn] at hp; subst hp; simp [c10PosTxn] at hq; simp [← hq])
    c10Result hmem

def c6Receipt : Receipt := { merchant := "COSTCO", dateDay := 0, total := 50 }

/-- A candidate exactly at the default 3-day tolerance, otherwise perfect. -/
def c6Txn : Transaction := { date := 3, payee := some "COSTCO", postings := [⟨some (-50)⟩] }

/-- C6 counterexample: with the default configuration, a candidate exactly at
the 3-day tolerance boundary still receives a date contribution of
`0.4 * (1 - 3/4) = 0.1`, not 0; an otherwise exact candidate at 3 days
appears with confidence `0.1 + 0.4 + 0.2·0.9`, not `0 + 0.4 + 0.2·0.9`. -/
theorem C6_counterexample :
    dateScore defaultMatchConfig.date_tolerance_days 3 = 1/10 ∧ (1/10 : ℚ) ≠ 0 ∧
    (matchReceiptToTransactions id (fun _ => ∅) c6Receipt [c6Txn] defaultMatchConfig).map
      (fun m => m.confidence) = [1/10 + 2/5 + 1/5 * (9/10)] := by
  refine ⟨by norm_num [dateScore, defaultMatchConfig], by norm_num, ?_⟩
  have h1 : tryMatch id (fun _ => ∅) c6Receipt c6Txn defaultMatchConfig =
      some { transaction := c6Txn, file_path := "unknown", line_number := 0,
             confidence := 1/10 + 2/5 + 1/5 * (9/10) } := by
    simp [tryMatch, firstNegAmount, dateScore, amountScore, merchantSimilarity,
      c6Receipt, c6Txn, defaultMatchConfig, List.infix_refl] <;> norm_num
  simp [matchReceiptToTransactions, h1, List.insertionSort, List.orderedInsert]

/-- C6 (amended): for a non-placeholder receipt date, the date contribution of
a returned match decays linearly as `0.4 * (1 - diff / (tolerance + 1))`: full
0.4 at a 0-day difference, reaching 0 only at `tolerance + 1` days (which is
already outside the accepted window); at the default 3-day tolerance boundary
the contribution is `0.4/4 = 0.1`, not 0. -/
theorem C6_amended_date_contribution_decay
    (normalize : String → String) (words : String → Finset String) (receipt : Receipt)
    (txn : Transaction) (config : MatchConfig) (m : MatchResult)
    (h : tryMatch normalize words receipt txn config = some m)
    (hpl : receipt.date_is_placeholder = false) :
    (∃ amt, firstNegAmount txn.postings = some amt ∧
      m.confidence =
        2/5 * (1 - ((txn.date - receipt.dateDay).natAbs : ℚ)
                    / ((config.date_tolerance_days : ℚ) + 1))
        + amountScore (|amt - receipt.total|)
            (max config.amount_tolerance (receipt.total * config.amount_tolerance_percent))
        + 1/5 * merchantSimilarity normalize words receipt.merchant (txn.payee.getD "")) ∧
    dateScore (3 : Int) 3 = 1/10 := by
  obtain ⟨_, _, _, amt, hfn, _, hconf⟩ :=
    tryMatch_some_spec normalize words receipt txn config m h
  refine ⟨⟨amt, hfn, ?_⟩, by norm_num [dateScore]⟩
  rw [hconf, if_neg (by simp [hpl]), dateScore_linear]

def c6aReceipt : Receipt := { merchant := "COSTCO", dateDay := 0, total := 50 }

def c6aTxn : Transaction := { date := 1, payee := some "COSTCO", postings := [⟨some (-50)⟩] }

def c6aResult : MatchResult :=
  { transaction := c6aTxn, file_path := "unknown", line_number := 0
    confidence := 2/5 * (1 - 1/4) + 2/5 + 1/5 * (9/10) }

theorem C6_amended_witness :
    (tryMatch id (fun _ => ∅) c6aReceipt c6aTxn defaultMatchConfig = some c6aResult) ∧
    c6aReceipt.date_is_placeholder = false ∧
    (∃ amt, firstNegAmount c6aTxn.postings = some amt ∧
      c6aResult.confidence =
        2/5 * (1 - ((c6aTxn.date - c6aReceipt.dateDay).natAbs : ℚ)
                    / ((defaultMatchConfig.date_tolerance_days : ℚ) + 1))
        + amountScore (|amt - c6aReceipt.total|)
            (max defaultMatchConfig.amount_tolerance
              (c6aReceipt.total * defaultMatchConfig.amount_tolerance_percent))
        + 1/5 * merchantSimilarity id (fun _ => ∅) c6aReceipt.merchant
            (c6aTxn.payee.getD "")) := by
  have hsome : tryMatch id (fun _ => ∅) c6aReceipt c6aTxn defaultMatchConfig = some c6aResult := by
    simp [tryMatch, firstNegAmount, dateScore, amountScore, merchantSimilarity,
      c6aReceipt, c6aTxn, c6aResult, defaultMatchConfig, List.infix_refl] <;> norm_num
  exact ⟨hsome, rfl,
    (C6_amended_date_contribution_decay id (fun _ => ∅) c6aReceipt c6aTxn defaultMatchConfig
      c6aResult hsome rfl).1⟩

end Matcher

namespace Writer

/-! ## Ledger mutator — `src/ledger_reader/writer.py` and `src/domain/match.py`

File contents are modelled as `List Char` (`Content`); the file system as a
partial map `String → Option Content` (`FS`), where `none` means the file
does not exist.  `Path.write_text` always succeeds in the model; creating a
file is writing to a missing path.  `date.today().isoformat()` is passed in
as the `today` argument, and the black-box Beancount `load_file` validation
collaborator is passed in as `validate : FS → Errors` (it reads the ledger
path it was configured with from the file system it is given).  Line
boundaries are modelled for `\n`, `\r\n` and `\r` (the boundaries that occur
in ledger text); Python `str.strip` is modelled as stripping ASCII
whitespace. -/

abbrev Content := List Char

abbrev FS := String → Option Content

/-- `Path.write_text`. -/
def writeF (fs : FS) (p : String) (c : Content) : FS :=
  fun q => if q = p then some c else fs q

/-- `Path.unlink`. -/
def unlinkF (fs : FS) (p : String) : FS :=
  fun q => if q = p then none else fs q

/-- Python `str.lstrip()` (ASCII whitespace). -/
def pyLstrip (l : Content) : Content := l.dropWhile Char.isWhitespace

/-- Python `str.strip()` (ASCII whitespace). -/
def pyStrip (l : Content) : Content :=
  ((l.dropWhile Char.isWhitespace).reverse.dropWhile Char.isWhitespace).reverse

/-- Worker for `splitKeepEnds`; the first argument is the reversed current
segment. -/
def splitKeepEndsGo : Content → Content → List Content
  | cur, [] => if cur = [] then [] else [cur.reverse]
  | cur, '\r' :: '\n' :: rest => (cur.reverse ++ ['\r', '\n']) :: splitKeepEndsGo [] rest
  | cur, '\n' :: rest => (cur.reverse ++ ['\n']) :: splitKeepEndsGo [] rest
  | cur, '\r' :: rest => (cur.reverse ++ ['\r']) :: splitKeepEndsGo [] rest
  | cur, c :: rest => splitKeepEndsGo (c :: cur) rest

/-- Python `str.splitlines(keepends=True)` for `\n` / `\r\n` / `\r`. -/
def splitKeepEnds (c : Content) : List Content := splitKeepEndsGo [] c

/-- Python `"".join(lines)`. -/
def joinContents (ls : List Content) : Content := ls.flatten

/-- `line.startswith((" ", "\t"))`. -/
def startsWithSpaceTab : Content → Bool
  | c :: _ => c = ' ' || c = '\t'
  | [] => false

/-- After the `\s+` of `_TXN_START_RE`: skip further whitespace, require a
literal asterisk. -/
def wsStar : Content → Bool
  | [] => false
  | c :: rest => if c = '*' then true else if c.isWhitespace then wsStar rest else false

/-- `_TXN_START_RE = ^\d{4}-\d{2}-\d{2}\s+\*`, applied with `re.match`. -/
def txnStartMatch : Content → Bool
  | a :: b :: c :: d :: '-' :: e :: f :: '-' :: g :: h :: rest =>
    a.isDigit && b.isDigit && c.isDigit && d.isDigit && e.isDigit && f.isDigit &&
    g.isDigit && h.isDigit &&
    (match rest with
     | w :: rest2 => w.isWhitespace && wsStar rest2
     | [] => false)
  | _ => false

/-- Fuel-indexed worker for `find_transaction_end` (the Python `while` loop);
the fuel starts at `lines.length`, which bounds the number of iterations. -/
def findTxnEndGo (lines : List Content) : Nat → Nat → Nat
  | 0, idx => idx
  | fuel + 1, idx =>
    match lines[idx]? with
    | none => idx
    | some line =>
      if pyStrip line = [] then idx + 1
      else if startsWithSpaceTab line then findTxnEndGo lines fuel (idx + 1)
      else idx

/-- `find_transaction_end` from `src/domain/match.py`: exclusive end index of
a transaction block (first blank line, consumed, or first top-level line). -/
def find_transaction_end (lines : List Content) (start_idx : Nat) : Nat :=
  findTxnEndGo lines lines.length (start_idx + 1)

/-- `comment_block` from `src/domain/match.py`. -/
def comment_block (lines : List Content) : List Content :=
  lines.map (fun line =>
    if pyStrip line = [] then line
    else if (pyLstrip line).take 1 = [';'] then line
    else "; ".toList ++ line)

/-- The `include "<rel>"` text whose presence makes the operation a no-op. -/
def includeDirective (includeRelPath : Content) : Content :=
  "include \"".toList ++ includeRelPath ++ "\"".toList

/-- Failure modes of the mutation (Python exceptions). -/
inductive WriterError where
  | statementMissing
  | invalidLineNumber
  | notTransactionStart
  | emptyTransactionBlock
  | validationFailed
deriving DecidableEq, Repr

/-- `LedgerWriter._replace_transaction_with_include`.  Returns the updated
file system and the status string, or the raised error. -/
def replaceTransactionWithInclude (fs : FS) (statementPath : String) (lineNumber : Int)
    (includeRelPath : Content) (receiptName : Content) (today : Content) :
    Except WriterError (FS × String) :=
  match fs statementPath with
  | none => .error .statementMissing
  | some content =>
    if includeDirective includeRelPath <:+: content then .ok (fs, "already_applied")
    else
      let lines := splitKeepEnds content
      if lineNumber - 1 < 0 ∨ (lines.length : Int) ≤ lineNumber - 1 then
        .error .invalidLineNumber
      else
        let s := (lineNumber - 1).toNat
        match lines[s]? with
        | none => .error .invalidLineNumber
        | some startLine =>
          if ¬ txnStartMatch (pyLstrip startLine) then .error .notTransactionStart
          else
            let endIdx := find_transaction_end lines s
            let originalBlock := (lines.drop s).take (endIdx - s)
            if originalBlock = [] then .error .emptyTransactionBlock
            else
              let stampLine := "; bb-match replaced from receipt ".toList ++ receiptName ++
                " on ".toList ++ today ++ ['\n']
              let commented := stampLine :: comment_block originalBlock
              let padded :=
                if commented ≠ [] ∧ pyStrip (commented.getLastD []) ≠ [] then
                  commented ++ [['\n']]
                else commented
              let includeLine := includeDirective includeRelPath ++ "  ; bb-match: ".toList ++
                receiptName ++ ['\n']
              let replacement := padded ++ [includeLine, ['\n']]
              let newLines := lines.take s ++ replacement ++ lines.drop endIdx
              .ok (writeF fs statementPath (joinContents newLines), "applied")

/-- The `except` block of `apply_receipt_match`: restore the statement file,
then restore the enriched file when it existed, else delete it if present. -/
def restoreSnapshots (statementPath : String) (originalStatement : Content)
    (enrichedPath : String) (enrichedExisted : Bool) (originalEnriched : Option Content)
    (fsX : FS) : FS :=
  let fsA := writeF fsX statementPath originalStatement
  match originalEnriched with
  | some c =>
    if enrichedExisted then writeF fsA enrichedPath c
    else if (fsA enrichedPath).isSome then unlinkF fsA enrichedPath else fsA
  | none => if (fsA enrichedPath).isSome then unlinkF fsA enrichedPath else fsA

/-- `LedgerWriter.apply_receipt_match`.  Returns the final file system along
with the status, or the propagated failure. -/
def applyReceiptMatch (validate : FS → List String) (today : Content)
    (statementPath : String) (lineNumber : Int) (includeRelPath : Content)
    (receiptName : Content) (enrichedPath : String) (enrichedContent : Content)
    (fs : FS) : FS × Except WriterError String :=
  match fs statementPath with
  | none => (fs, .error .statementMissing)
  | some originalStatement =>
    let enrichedExisted := (fs enrichedPath).isSome
    let originalEnriched := fs enrichedPath
    let fs1 := writeF fs enrichedPath enrichedContent
    match replaceTransactionWithInclude fs1 statementPath lineNumber includeRelPath
        receiptName today with
    | .error e =>
      (restoreSnapshots statementPath originalStatement enrichedPath enrichedExisted
        originalEnriched fs1, .error e)
    | .ok (fs2, status) =>
      if validate fs2 = [] then (fs2, .ok status)
      else
        (restoreSnapshots statementPath originalStatement enrichedPath enrichedExisted
          originalEnriched fs2, .error .validationFailed)

/-! ### File-system lemmas -/

theorem writeF_eq (fs : FS) (p : String) (c : Content) : writeF fs p c p = some c := by
  simp [writeF]

theorem writeF_ne (fs : FS) (p : String) (c : Content) (q : String) (h : q ≠ p) :
    writeF fs p c q = fs q := by
  simp [writeF, h]

theorem writeF_self (fs : FS) (p : String) (c : Content) (h : fs p = some c) :
    writeF fs p c = fs := by
  funext q
  unfold writeF
  split
  · rename_i hq; rw [hq, h]
  · rfl

theorem unlinkF_ne (fs : FS) (p : String) (q : String) (h : q ≠ p) :
    unlinkF fs p q = fs q := by
  simp [unlinkF, h]

/-- A successful `_replace_transaction_with_include` touches no path other
than the statement file. -/
theorem replace_ok_off_statement (fs : FS) (statementPath : String) (lineNumber : Int)
    (includeRelPath receiptName today : Content) (fs2 : FS) (st : String)
    (h : replaceTransactionWithInclude fs statementPath lineNumber includeRelPath
      receiptName today = .ok (fs2, st))
    (q : String) (hq : q ≠ statementPath) : fs2 q = fs q := by
  simp only [replaceTransactionWithInclude] at h
  split at h
  · exact absurd h (by simp)
  split at h
  · have hp := Except.ok.inj h
    injection hp with h1 h2
    rw [← h1]
  split at h
  · exact absurd h (by simp)
  split at h
  · exact absurd h (by simp)
  split at h
  · exact absurd h (by simp)
  split at h
  · exact absurd h (by simp)
  have hp := Except.ok.inj h
  injection hp with h1 h2
  rw [← h1]
  exact writeF_ne _ _ _ _ hq

/-- A successful `_replace_transaction_with_include` leaves the statement
file containing the `include` directive (it either was already there, or the
written replacement block contains the `include` line). -/
theorem replace_ok_include (fs : FS) (statementPath : String) (lineNumber : Int)
    (includeRelPath receiptName today : Content) (fs2 : FS) (st : String)
    (h : replaceTransactionWithInclude fs statementPath lineNumber includeRelPath
      receiptName today = .ok (fs2, st)) :
    ∃ c, fs2 statementPath = some c ∧ includeDirective includeRelPath <:+: c := by
  simp only [replaceTransactionWithInclude] at h
  split at h
  · exact absurd h (by simp)
  rename_i content hs
  split at h
  · rename_i hinc
    have hp := Except.ok.inj h
    injection hp with h1 h2
    exact ⟨content, by rw [← h1, hs], hinc⟩
  split at h
  · exact absurd h (by simp)
  split at h
  · exact absurd h (by simp)
  split at h
  · exact absurd h (by simp)
  split at h
  · exact absurd h (by simp)
  have hp := Except.ok.inj h
  injection hp with h1 h2
  refine ⟨_, by rw [← h1]; exact writeF_eq _ _ _, ?_⟩
  -- the include line is one of the joined lines
  have hmid : includeDirective includeRelPath <:+:
      includeDirective includeRelPath ++ "  ; bb-match: ".toList ++ receiptName ++ ['\n'] :=
    (((List.prefix_append _ _).trans (List.prefix_append _ _)).trans
      (List.prefix_append _ _)).isInfix
  refine hmid.trans ?_
  apply List.infix_of_mem_flatten
  simp [joinContents]

/-- The `except` block restores the pre-call file system whenever the failing
state differs from it only at the statement and enriched paths. -/
theorem restoreSnapshots_eq (fs fsX : FS) (statementPath enrichedPath : String)
    (orig : Content)
    (hstmt : fs statementPath = some orig)
    (hoff : ∀ q, q ≠ statementPath → q ≠ enrichedPath → fsX q = fs q) :
    restoreSnapshots statementPath orig enrichedPath (fs enrichedPath).isSome
      (fs enrichedPath) fsX = fs := by
  funext q
  have hA : ∀ q, q ≠ enrichedPath →
      writeF fsX statementPath orig q = fs q := by
    intro q hq1
    by_cases hq2 : q = statementPath
    · subst hq2; rw [writeF_eq, hstmt]
    · rw [writeF_ne _ _ _ _ hq2]
      exact hoff q hq2 hq1
  cases he : fs enrichedPath with
  | some c =>
    simp only [restoreSnapshots, he, Option.isSome_some, if_true]
    by_cases hq1 : q = enrichedPath
    · subst hq1; rw [writeF_eq, he]
    · rw [writeF_ne _ _ _ _ hq1]
      exact hA q hq1
  | none =>
    simp only [restoreSnapshots, he]
    by_cases hq1 : q = enrichedPath
    · subst hq1
      rw [he]
      split
      · simp [unlinkF]
      · rename_i hns
        exact Option.not_isSome_iff_eq_none.mp hns
    · split
      · rw [unlinkF_ne _ _ _ hq1]
        exact hA q hq1
      · exact hA q hq1

/-! ### Claim theorems -/

/-- C1: whenever `apply_receipt_match` propagates a failure (ledger
validation errors, or any raised step), the final file system is exactly the
pre-call one: the statement file and the enriched file are byte-identical to
their snapshots, an enriched file that did not exist before is gone, and no
other path was ever touched. -/
theorem C1_apply_receipt_match_rolls_back (validate : FS → List String) (today : Content)
    (statementPath : String) (lineNumber : Int) (includeRelPath receiptName : Content)
    (enrichedPath : String) (enrichedContent : Content) (fs : FS) (e : WriterError)
    (h : (applyReceiptMatch validate today statementPath lineNumber includeRelPath
      receiptName enrichedPath enrichedContent fs).2 = .error e) :
    (applyReceiptMatch validate today statementPath lineNumber includeRelPath
      receiptName enrichedPath enrichedContent fs).1 = fs := by
  unfold applyReceiptMatch at h ⊢
  cases hs : fs statementPath with
  | none => simp [hs]
  | some orig =>
    simp only [hs] at h ⊢
    cases hr : replaceTransactionWithInclude (writeF fs enrichedPath enrichedContent)
        statementPath lineNumber includeRelPath receiptName today with
    | error e2 =>
      simp only [hr]
      apply restoreSnapshots_eq _ _ _ _ _ hs
      intro q hq1 hq2
      exact writeF_ne _ _ _ _ hq2
    | ok pr =>
      obtain ⟨fs2, st⟩ := pr
      simp only [hr] at h ⊢
      by_cases hv : validate fs2 = []
      · rw [if_pos hv] at h
        exact absurd h (by simp)
      · rw [if_neg hv] at h ⊢
        apply restoreSnapshots_eq _ _ _ _ _ hs
        intro q hq1 hq2
        rw [replace_ok_off_statement _ _ _ _ _ _ _ _ hr q hq1]
        exact writeF_ne _ _ _ _ hq2

def c1Stmt : String := "statement.beancount"

def c1Enr : String := "enriched.beancount"

def c1StmtContent : Content :=
  ("2024-01-02 * \"PAYEE\"\n  Assets:Cash  -5.00 CAD\n").toList

def c1Fs : FS := fun q => if q = c1Stmt then some c1StmtContent else none

/-- A validator that always reports one error, forcing rollback after both
files have been written. -/
def c1FailValidate : FS → List String := fun _ => ["validation error"]

theorem C1_witness :
    (applyReceiptMatch c1FailValidate ("2026-10-12".toList) c1Stmt 1 ("r.beancount".toList)
      ("r".toList) c1Enr ("ENRICHED\n".toList) c1Fs).2 = .error .validationFailed ∧
    (applyReceiptMatch c1FailValidate ("2026-10-12".toList) c1Stmt 1 ("r.beancount".toList)
      ("r".toList) c1Enr ("ENRICHED\n".toList) c1Fs).1 = c1Fs := by
  constructor
  · rfl
  · exact C1_apply_receipt_match_rolls_back c1FailValidate _ c1Stmt 1 _ _ c1Enr _ c1Fs
      .validationFailed rfl

def c2Stmt : String := "statement.beancount"

def c2Enr : String := "enriched.beancount"

def c2StmtContent : Content := ("include \"r.beancount\"  ; bb-match: r\n").toList

def c2OldContent : Content := "OLD\n".toList

def c2NewContent : Content := "NEW\n".toList

def c2Fs : FS := fun q =>
  if q = c2Stmt then some c2StmtContent
  else if q = c2Enr then some c2OldContent
  else none

/-- C2 counterexample: when the include directive is already present, the
call does return the "already applied" status and leaves the statement file
alone, but it does NOT leave the enriched file untouched: `enriched_content`
is written to the enriched path before the idempotence check, so a
pre-existing enriched file with different content is overwritten (and kept,
since validation passes). -/
theorem C2_counterexample :
    (applyReceiptMatch (fun _ => []) ("2026-10-12".toList) c2Stmt 1 ("r.beancount".toList)
      ("r".toList) c2Enr c2NewContent c2Fs).2 = .ok "already_applied" ∧
    c2Fs c2Enr = some c2OldContent ∧
    (applyReceiptMatch (fun _ => []) ("2026-10-12".toList) c2Stmt 1 ("r.beancount".toList)
      ("r".toList) c2Enr c2NewContent c2Fs).1 c2Enr = some c2NewContent ∧
    c2NewContent ≠ c2OldContent := by
  exact ⟨rfl, rfl, rfl, by decide⟩

/-- C2 (amended): if the include directive is already present in the
statement file, the operation returns the no-op success "already applied"
and leaves the statement file (and every other path except the enriched
file) unchanged — its only effect is (re)writing `enriched_content` to the
enriched path, which changes nothing when that content is already there.
Consequently a second call with identical inputs after any successful call
returns "already applied" and leaves the entire file system unchanged, so no
duplicate include directive and no duplicate commented block is produced. -/
theorem C2_amended_already_applied_and_idempotent (validate : FS → List String)
    (today : Content) (statementPath : String) (lineNumber : Int)
    (includeRelPath receiptName : Content) (enrichedPath : String)
    (enrichedContent : Content) (fs fs1 : FS) (st : String) (stmtC : Content)
    (hne : statementPath ≠ enrichedPath) :
    (fs statementPath = some stmtC → includeDirective includeRelPath <:+: stmtC →
      validate (writeF fs enrichedPath enrichedContent) = [] →
      applyReceiptMatch validate today statementPath lineNumber includeRelPath receiptName
        enrichedPath enrichedContent fs =
        (writeF fs enrichedPath enrichedContent, .ok "already_applied")) ∧
    (applyReceiptMatch validate today statementPath lineNumber includeRelPath receiptName
        enrichedPath enrichedContent fs = (fs1, .ok st) →
      applyReceiptMatch validate today statementPath lineNumber includeRelPath receiptName
        enrichedPath enrichedContent fs1 = (fs1, .ok "already_applied")) := by
  constructor
  · intro hstmt hinc hval
    have hrd : writeF fs enrichedPath enrichedContent statementPath = some stmtC := by
      rw [writeF_ne _ _ _ _ hne, hstmt]
    have hrepl : replaceTransactionWithInclude (writeF fs enrichedPath enrichedContent)
        statementPath lineNumber includeRelPath receiptName today =
        .ok (writeF fs enrichedPath enrichedContent, "already_applied") := by
      simp only [replaceTransactionWithInclude, hrd, hinc, if_true]
    simp only [applyReceiptMatch, hstmt, hrepl, hval]
    simp
  · intro h
    -- dissect the first call
    simp only [applyReceiptMatch] at h
    split at h
    · injection h with h1 h2
      exact absurd h2 (by simp)
    rename_i orig hs
    split at h
    · injection h with h1 h2
      exact absurd h2 (by simp)
    rename_i pr fs2 st2 hr
    split at h
    · rename_i hv
      injection h with h1 h2
      injection h2 with h3
      subst h1
      subst h3
      obtain ⟨c, hc, hcinc⟩ := replace_ok_include _ _ _ _ _ _ _ _ hr
      have henr : fs2 enrichedPath = some enrichedContent := by
        rw [replace_ok_off_statement _ _ _ _ _ _ _ _ hr enrichedPath (Ne.symm hne)]
        exact writeF_eq _ _ _
      have hw : writeF fs2 enrichedPath enrichedContent = fs2 := writeF_self _ _ _ henr
      have hrepl2 : replaceTransactionWithInclude fs2 statementPath lineNumber
          includeRelPath receiptName today = .ok (fs2, "already_applied") := by
        simp only [replaceTransactionWithInclude, hc, hcinc, if_true]
      simp only [applyReceiptMatch, hc, hw, hrepl2, hv]
      simp
    · injection h with h1 h2
      exact absurd h2 (by simp)

def c2aStmt : String := "statement.beancount"

def c2aEnr : String := "enriched.beancount"

def c2aStmtContent : Content :=
  ("2024-01-02 * \"PAYEE\"\n  Assets:Cash  -5.00 CAD\n").toList

def c2aFs : FS := fun q => if q = c2aStmt then some c2aStmtContent else none

def c2aFs1 : FS :=
  (applyReceiptMatch (fun _ => []) ("2026-10-12".toList) c2aStmt 1 ("r.beancount".toList)
    ("r".toList) c2aEnr ("ENRICHED\n".toList) c2aFs).1

theorem C2_amended_witness :
    (applyReceiptMatch (fun _ => []) ("2026-10-12".toList) c2aStmt 1 ("r.beancount".toList)
      ("r".toList) c2aEnr ("ENRICHED\n".toList) c2aFs1 =
      (c2aFs1, .ok "already_applied")) ∧
    (applyReceiptMatch (fun _ => []) ("2026-10-12".toList) c2Stmt 1 ("r.beancount".toList)
      ("r".toList) c2Enr c2NewContent c2Fs =
      (writeF c2Fs c2Enr c2NewContent, .ok "already_applied")) := by
  constructor
  · exact (C2_amended_already_applied_and_idempotent (fun _ => []) ("2026-10-12".toList)
      c2aStmt 1 ("r.beancount".toList) ("r".toList) c2aEnr ("ENRICHED\n".toList)
      c2aFs c2aFs1 "applied" [] (by decide)).2 rfl
  · exact (C2_amended_already_applied_and_idempotent (fun _ => []) ("2026-10-12".toList)
      c2Stmt 1 ("r.beancount".toList) ("r".toList) c2Enr c2NewContent
      c2Fs c2Fs "" c2StmtContent (by decide)).1 rfl (by decide) rfl

end Writer

namespace Formatter

/-! ## Receipt draft serialization — `src/receipt/formatter.py`

This section embeds the posting assembly of `format_parsed_receipt` (lines
160-197): the credit-card posting, one posting per item, the optional tax
posting and the optional "unaccounted" balancing posting.  The subsequent
column alignment of each posting into one output line
(`_format_postings_aligned`) and the comment headers are pure text layout
and are not modelled; one posting here is one posting line of the
serialized draft. -/

/-- One assembled posting: account, amount (the `Decimal` rendered as
`"<amount> CAD"`), optional trailing comment. -/
structure Posting where
  account : String
  amount : ℚ
  comment : Option String
deriving DecidableEq, Repr

/-- Python `\w` (ASCII). -/
def isWordChar (c : Char) : Bool := c.isAlphanum || c = '_'

/-- Four digits followed by a `\b` word boundary. -/
def fourDigitsBound : List Char → Option (List Char)
  | d1 :: d2 :: d3 :: d4 :: rest =>
    if d1.isDigit && d2.isDigit && d3.isDigit && d4.isDigit &&
        (match rest with | [] => true | c :: _ => !isWordChar c) then
      some [d1, d2, d3, d4]
    else none
  | _ => none

/-- `re.search(r"\*{2,}\s*([0-9]{4})\b", line)`: leftmost run of two or more
asterisks, optional whitespace, then four digits at a word boundary. -/
def searchCard : List Char → Option (List Char)
  | [] => none
  | c :: rest =>
    match
      (if c = '*' then
        match rest with
        | c2 :: _ =>
          if c2 = '*' then
            fourDigitsBound ((rest.dropWhile (· = '*')).dropWhile Char.isWhitespace)
          else none
        | [] => none
      else none) with
    | some ds => some ds
    | none => searchCard rest

/-- Python `s.split("\n")` (no keepends, empty segments kept). -/
def splitOnNlGo : List Char → List Char → List (List Char)
  | cur, [] => [cur.reverse]
  | cur, '\n' :: rest => cur.reverse :: splitOnNlGo [] rest
  | cur, c :: rest => splitOnNlGo (c :: cur) rest

def splitOnNl (c : List Char) : List (List Char) := splitOnNlGo [] c

/-- Scan the split lines for a masked card number. -/
def cardScanLines : List (List Char) → Option (List Char)
  | [] => none
  | line :: rest =>
    if '*' ∈ line then
      match searchCard line with
      | some ds => some ds
      | none => cardScanLines rest
    else cardScanLines rest

/-- `_extract_card_last4` from `src/receipt/formatter.py`. -/
def extractCardLast4 (raw_text : String) : Option String :=
  if raw_text.toList = [] then none
  else (cardScanLines (splitOnNl raw_text.toList)).map String.mk

/-- `desc.replace('"', "'")` (the apostrophe is `Char.ofNat 39`). -/
def replaceQuote (s : String) : String :=
  String.mk (s.toList.map (fun c => if c = '"' then Char.ofNat 39 else c))

/-- The credit-card placeholder posting (formatter.py lines 163-166). -/
def ccPosting (receipt : Receipt) (credit_card_account : String) : Posting :=
  { account := credit_card_account
    amount := -receipt.total
    comment := (extractCardLast4 receipt.raw_text).map (fun l4 => "card ****" ++ l4) }

/-- One posting per item (formatter.py lines 169-184); an item without a
category goes to `Expenses:FIXME`, and a quantity above 1 is annotated in
the comment. -/
def itemPostings (receipt : Receipt) : List Posting :=
  receipt.items.map (fun item =>
    { account := item.category.getD "Expenses:FIXME"
      amount := item.price
      comment := some (if 1 < item.quantity then
          replaceQuote item.description ++ " (qty " ++ toString item.quantity ++ ")"
        else replaceQuote item.description) })

/-- The optional tax posting (formatter.py lines 187-190); `if receipt.tax:`
is false for both `None` and `Decimal("0")`. -/
def taxPostings (receipt : Receipt) : List Posting :=
  match receipt.tax with
  | some t => if t = 0 then [] else [{ account := "Expenses:Tax:HST", amount := t, comment := none }]
  | none => []

/-- `items_total` after the item and tax loops: the item prices plus the tax
when it is truthy. -/
def itemsTotalWithTax (receipt : Receipt) : ℚ :=
  (receipt.items.map (fun item => item.price)).sum +
    (match receipt.tax with
     | some t => if t = 0 then 0 else t
     | none => 0)

/-- The balancing posting block (formatter.py lines 193-197): emitted only
when the itemized sum differs from a positive stated total and the
difference is positive. -/
def balancingPostings (receipt : Receipt) : List Posting :=
  if itemsTotalWithTax receipt ≠ receipt.total ∧ 0 < receipt.total then
    if 0 < receipt.total - itemsTotalWithTax receipt then
      [{ account := "Expenses:FIXME"
         amount := receipt.total - itemsTotalWithTax receipt
         comment := some "FIXME: unaccounted amount" }]
    else []
  else []

/-- The posting list assembled by `format_parsed_receipt`. -/
def parsedReceiptPostings (receipt : Receipt) (credit_card_account : String) : List Posting :=
  ccPosting receipt credit_card_account :: (itemPostings receipt ++ taxPostings receipt
    ++ balancingPostings receipt)

/-- Items $9.07 + $0 tax against a $9.07 stated total. -/
def c9ExactReceipt : Receipt :=
  { merchant := "MARKET", dateDay := 0, total := 907/100
    items := [{ description := "ITEM A", price := 907/100 }], tax := some 0 }

/-- Items $8.00 against a $9.07 stated total. -/
def c9ShortReceipt : Receipt :=
  { merchant := "MARKET", dateDay := 0, total := 907/100
    items := [{ description := "ITEM B", price := 8 }] }

/-- C9: when the item prices plus tax sum exactly to the stated total, no
unaccounted/FIXME balancing posting is emitted; when the itemized sum falls
short of a positive stated total, a balancing posting for exactly the
difference is appended.  In particular items of $9.07 with $0 tax against a
$9.07 total produce no balancing posting, and items of $8.00 against $9.07
produce a $1.07 unaccounted posting. -/
theorem C9_unaccounted_balancing_posting (receipt : Receipt) (credit_card_account : String) :
    (itemsTotalWithTax receipt = receipt.total →
      balancingPostings receipt = [] ∧
      parsedReceiptPostings receipt credit_card_account =
        ccPosting receipt credit_card_account ::
          (itemPostings receipt ++ taxPostings receipt)) ∧
    (itemsTotalWithTax receipt < receipt.total → 0 < receipt.total →
      balancingPostings receipt =
        [{ account := "Expenses:FIXME"
           amount := receipt.total - itemsTotalWithTax receipt
           comment := some "FIXME: unaccounted amount" }]) ∧
    parsedReceiptPostings c9ExactReceipt "Liabilities:CreditCard:PENDING" =
      [{ account := "Liabilities:CreditCard:PENDING", amount := -(907/100), comment := none },
       { account := "Expenses:FIXME", amount := 907/100, comment := some "ITEM A" }] ∧
    parsedReceiptPostings c9ShortReceipt "Liabilities:CreditCard:PENDING" =
      [{ account := "Liabilities:CreditCard:PENDING", amount := -(907/100), comment := none },
       { account := "Expenses:FIXME", amount := 8, comment := some "ITEM B" },
       { account := "Expenses:FIXME", amount := 107/100
         comment := some "FIXME: unaccounted amount" }] := by
  refine ⟨?_, ?_, ?_, ?_⟩
  · intro h
    have hb : balancingPostings receipt = [] := by
      unfold balancingPostings
      rw [if_neg]
      simp [h]
    exact ⟨hb, by rw [parsedReceiptPostings, hb, List.append_nil]⟩
  · intro h1 h2
    unfold balancingPostings
    rw [if_pos ⟨ne_of_lt h1, h2⟩, if_pos (by linarith)]
  · simp [parsedReceiptPostings, ccPosting, itemPostings, taxPostings, balancingPostings,
      itemsTotalWithTax, extractCardLast4, replaceQuote, c9ExactReceipt] <;> norm_num
  · simp [parsedReceiptPostings, ccPosting, itemPostings, taxPostings, balancingPostings,
      itemsTotalWithTax, extractCardLast4, replaceQuote, c9ShortReceipt] <;> norm_num

theorem C9_witness :
    (itemsTotalWithTax c9ExactReceipt = c9ExactReceipt.total ∧
      balancingPostings c9ExactReceipt = []) ∧
    (itemsTotalWithTax c9ShortReceipt < c9ShortReceipt.total ∧ 0 < c9ShortReceipt.total ∧
      balancingPostings c9ShortReceipt =
        [{ account := "Expenses:FIXME"
           amount := c9ShortReceipt.total - itemsTotalWithTax c9ShortReceipt
           comment := some "FIXME: unaccounted amount" }]) := by
  have h1 : itemsTotalWithTax c9ExactReceipt = c9ExactReceipt.total := by
    norm_num [itemsTotalWithTax, c9ExactReceipt]
  have h2 : itemsTotalWithTax c9ShortReceipt < c9ShortReceipt.total := by
    norm_num [itemsTotalWithTax, c9ShortReceipt]
  have h3 : (0 : ℚ) < c9ShortReceipt.total := by norm_num [c9ShortReceipt]
  exact ⟨⟨h1, ((C9_unaccounted_balancing_posting c9ExactReceipt "X").1 h1).1⟩,
    ⟨h2, h3, (C9_unaccounted_balancing_posting c9ShortReceipt "X").2.1 h2 h3⟩⟩

end Formatter

namespace Grouping

/-! ## Detection grouper — `src/receipt/ocr_helpers.py`

`_group_detections_by_y_overlap` and its helpers.  A detection dict carries
`text`, `min_x`, `y_min`, `y_max`, `center_y`; coordinates are floats,
modelled as `ℚ`.  The Python float literal `1e-6` becomes `1/1000000`. -/

structure Detection where
  text : String
  min_x : ℚ
  y_min : ℚ
  y_max : ℚ
  center_y : ℚ
deriving DecidableEq, Repr

/-- `_boxes_overlap_y`: vertical overlap of at least `minOverlap` of the
shorter box's height. -/
def boxesOverlapY (det1 det2 : Detection) (minOverlap : ℚ) : Bool :=
  let overlapStart := max det1.y_min det2.y_min
  let overlapEnd := min det1.y_max det2.y_max
  if overlapEnd ≤ overlapStart then false
  else
    let overlap := overlapEnd - overlapStart
    let smallerHeight := min (det1.y_max - det1.y_min) (det2.y_max - det2.y_min)
    if smallerHeight ≤ 0 then false
    else decide (minOverlap ≤ overlap / smallerHeight)

/-- LEFT zone test of step 2 (`x_norm < 0.3`). -/
def isLeftZone (d : Detection) (image_width : ℚ) : Prop := d.min_x / image_width < 3/10

/-- RIGHT zone test (the `elif x_norm > 0.7` branch). -/
def isRightZone (d : Detection) (image_width : ℚ) : Prop :=
  ¬ isLeftZone d image_width ∧ 7/10 < d.min_x / image_width

/-- MIDDLE zone test (the `else` branch). -/
def isMiddleZone (d : Detection) (image_width : ℚ) : Prop :=
  ¬ isLeftZone d image_width ∧ ¬ 7/10 < d.min_x / image_width

instance (d : Detection) (w : ℚ) : Decidable (isLeftZone d w) := by
  unfold isLeftZone; infer_instance

instance (d : Detection) (w : ℚ) : Decidable (isRightZone d w) := by
  unfold isRightZone; infer_instance

instance (d : Detection) (w : ℚ) : Decidable (isMiddleZone d w) := by
  unfold isMiddleZone; infer_instance

/-- The inner scan of the pairing loop: the first enumerated RIGHT detection
that is not yet consumed and overlaps the LEFT detection by at least 30%. -/
def firstUnassigned (left : Detection) : List (Nat × Detection) → Finset Nat →
    Option (Nat × Detection)
  | [], _ => none
  | (ri, rd) :: rest, assigned =>
    if ri ∈ assigned then firstUnassigned left rest assigned
    else if boxesOverlapY left rd (3/10) then some (ri, rd)
    else firstUnassigned left rest assigned

/-- The LEFT-first pairing loop: each LEFT detection in reading order takes
the first unconsumed overlapping RIGHT detection, or stands alone. -/
def pairLefts (rights : List (Nat × Detection)) :
    List Detection → Finset Nat → List (List Detection) × Finset Nat
  | [], assigned => ([], assigned)
  | l :: ls, assigned =>
    match firstUnassigned l rights assigned with
    | some (ri, rd) =>
      let rec2 := pairLefts rights ls (insert ri assigned)
      ([l, rd] :: rec2.1, rec2.2)
    | none =>
      let rec2 := pairLefts rights ls assigned
      ([l] :: rec2.1, rec2.2)

/-- `_line_y_span` minimum (lines are nonempty in every call). -/
def lineMinY : List Detection → ℚ
  | [] => 0
  | d :: ds => (ds.map (fun x => x.y_min)).foldl min d.y_min

/-- `_line_y_span` maximum. -/
def lineMaxY : List Detection → ℚ
  | [] => 0
  | d :: ds => (ds.map (fun x => x.y_max)).foldl max d.y_max

/-- `_line_center_y`: average center of the line's detections. -/
def lineCenterY (line : List Detection) : ℚ :=
  (line.map (fun d => d.center_y)).sum / (line.length : ℚ)

/-- `_line_overlap_ratio` (the Lean name avoids the original's suffix):
vertical overlap of a detection with a line span, relative to the shorter of
the two heights, each floored at `1e-6`. -/
def lineOverlapFrac (det : Detection) (line : List Detection) : ℚ :=
  let lineMin := lineMinY line
  let lineMax := lineMaxY line
  let overlapStart := max det.y_min lineMin
  let overlapEnd := min det.y_max lineMax
  if overlapEnd ≤ overlapStart then 0
  else
    let overlap := overlapEnd - overlapStart
    let detHeight := max (det.y_max - det.y_min) (1/1000000)
    let lineHeight := max (lineMax - lineMin) (1/1000000)
    overlap / min detHeight lineHeight

/-- `_distance_to_line_span`. -/
def distanceToLineSpan (det : Detection) (line : List Detection) : ℚ :=
  let lineMin := lineMinY line
  let lineMax := lineMaxY line
  if lineMin ≤ det.center_y ∧ det.center_y ≤ lineMax then 0
  else if det.center_y < lineMin then lineMin - det.center_y
  else det.center_y - lineMax

/-- `_adaptive_middle_y_threshold`: clamp `0.8 × median height` to `[12, 30]`,
24 when no box has positive height. -/
def adaptiveMiddleYThreshold (detections : List Detection) : ℚ :=
  let heights := (detections.filter (fun d => decide (d.y_min < d.y_max))).map
    (fun d => d.y_max - d.y_min)
  if heights = [] then 24
  else
    let sorted := List.insertionSort (fun a b : ℚ => a ≤ b) heights
    max 12 (min 30 (sorted.getD (heights.length / 2) 0 * (4/5)))

/-- Strict lexicographic comparison of the middle-attachment score triples
(Python tuple `<`). -/
def scoreLt (a b : Nat × ℚ × ℚ) : Prop :=
  a.1 < b.1 ∨ (a.1 = b.1 ∧ (a.2.1 < b.2.1 ∨ (a.2.1 = b.2.1 ∧ a.2.2 < b.2.2)))

instance (a b : Nat × ℚ × ℚ) : Decidable (scoreLt a b) := by
  unfold scoreLt; infer_instance

/-- The middle-attachment scan over the existing lines, keeping the
best-scoring qualifying line. -/
def bestLineGo (midDet : Detection) (yThreshold : ℚ) :
    List (Nat × List Detection) → Option (Nat × (Nat × ℚ × ℚ)) → Option (Nat × (Nat × ℚ × ℚ))
  | [], best => best
  | (idx, line) :: rest, best =>
    let overlapFrac := lineOverlapFrac midDet line
    let centerDistance := |midDet.center_y - lineCenterY line|
    if overlapFrac < 1/4 ∧ yThreshold < centerDistance then
      bestLineGo midDet yThreshold rest best
    else
      let score : Nat × ℚ × ℚ :=
        (if 1/4 ≤ overlapFrac then 0 else 1, distanceToLineSpan midDet line, centerDistance)
      match best with
      | none => bestLineGo midDet yThreshold rest (some (idx, score))
      | some (bidx, bscore) =>
        if scoreLt score bscore then bestLineGo midDet yThreshold rest (some (idx, score))
        else bestLineGo midDet yThreshold rest (some (bidx, bscore))

/-- Attach one MIDDLE detection: append to the best qualifying line, or
start a new line. -/
def attachMiddle (lines : List (List Detection)) (midDet : Detection)
    (yThreshold : ℚ) : List (List Detection) :=
  match bestLineGo midDet yThreshold lines.enum none with
  | some (idx, _) => lines.set idx (lines.getD idx [] ++ [midDet])
  | none => lines ++ [[midDet]]

/-- Average center Y of a line, the final line sort key. -/
def lineAvgCenterY (line : List Detection) : ℚ :=
  (line.map (fun d => d.center_y)).sum / (line.length : ℚ)

/-- The LEFT/RIGHT pairing stage (ocr_helpers.py lines 170-214).  This is at
the same time the pairing described by the claim, in its own words:
LEFT-zone detections in top-to-bottom order, each paired with the first
not-yet-consumed RIGHT-zone detection whose vertical extent overlaps it by
at least 30% of the shorter box's height (that RIGHT detection becoming
consumed), a LEFT detection with no such RIGHT detection forming a line
alone, and every never-consumed RIGHT detection becoming its own solitary
line. -/
def claimPairing (detections : List Detection) (image_width : ℚ) : List (List Detection) :=
  let leftItems := detections.filter (fun d => decide (isLeftZone d image_width))
  let rightItems := detections.filter (fun d => decide (isRightZone d image_width))
  let leftSorted := List.insertionSort (fun a b : Detection => a.center_y ≤ b.center_y) leftItems
  let rightSorted := List.insertionSort (fun a b : Detection => a.center_y ≤ b.center_y) rightItems
  let rightsEnum := rightSorted.enum
  let paired := pairLefts rightsEnum leftSorted ∅
  paired.1 ++ (rightsEnum.filter (fun p => p.1 ∉ paired.2)).map (fun p => [p.2])

/-- `_group_detections_by_y_overlap` from `src/receipt/ocr_helpers.py`: the
LEFT/RIGHT pairing stage, then MIDDLE attachment, then the final sorting of
each line by horizontal position and of the lines by mean vertical
position. -/
def groupDetectionsByYOverlap (detections : List Detection) (image_width : ℚ) :
    List (List Detection) :=
  if detections = [] then []
  else
    let middleItems := detections.filter (fun d => decide (isMiddleZone d image_width))
    let lines1 := claimPairing detections image_width
    let yThreshold := adaptiveMiddleYThreshold detections
    let lines2 := middleItems.foldl (fun ls md => attachMiddle ls md yThreshold) lines1
    let lines3 := lines2.map (List.insertionSort (fun a b : Detection => a.min_x ≤ b.min_x))
    List.insertionSort (fun la lb : List Detection => lineAvgCenterY la ≤ lineAvgCenterY lb) lines3

/-- The inner scan only returns entries of the scanned list. -/
theorem firstUnassigned_mem (l : Detection) :
    ∀ (rs : List (Nat × Detection)) (asg : Finset Nat) (p : Nat × Detection),
      firstUnassigned l rs asg = some p → p ∈ rs := by
  intro rs
  induction rs with
  | nil => intro asg p h; simp [firstUnassigned] at h
  | cons hd tl ih =>
    intro asg p h
    obtain ⟨ri, rd⟩ := hd
    unfold firstUnassigned at h
    split at h
    · exact List.mem_cons_of_mem _ (ih asg p h)
    · split at h
      · rw [← Option.some.inj h]
        exact List.mem_cons_self _ _
      · exact List.mem_cons_of_mem _ (ih asg p h)

/-- Every line the pairing loop builds is `[l]` or `[l, r]` with `l` from the
LEFT list and `r` the detection of an entry of the RIGHT list. -/
theorem pairLefts_shape (rights : List (Nat × Detection)) :
    ∀ (lefts : List Detection) (assigned : Finset Nat) (line : List Detection),
      line ∈ (pairLefts rights lefts assigned).1 →
      (∃ l ∈ lefts, line = [l]) ∨
      (∃ l ∈ lefts, ∃ p ∈ rights, line = [l, p.2]) := by
  intro lefts
  induction lefts with
  | nil => intro asg line h; simp [pairLefts] at h
  | cons l ls ih =>
    intro asg line h
    unfold pairLefts at h
    split at h
    · rename_i p ri rd heq
      rcases List.mem_cons.mp h with h1 | h1
      · exact Or.inr ⟨l, List.mem_cons_self _ _, (ri, rd),
          firstUnassigned_mem l rights asg (ri, rd) heq, h1⟩
      · rcases ih _ line h1 with ⟨l2, hl2, he⟩ | ⟨l2, hl2, p2, hp2, he⟩
        · exact Or.inl ⟨l2, List.mem_cons_of_mem _ hl2, he⟩
        · exact Or.inr ⟨l2, List.mem_cons_of_mem _ hl2, p2, hp2, he⟩
    · rcases List.mem_cons.mp h with h1 | h1
      · exact Or.inl ⟨l, List.mem_cons_self _ _, h1⟩
      · rcases ih _ line h1 with ⟨l2, hl2, he⟩ | ⟨l2, hl2, p2, hp2, he⟩
        · exact Or.inl ⟨l2, List.mem_cons_of_mem _ hl2, he⟩
        · exact Or.inr ⟨l2, List.mem_cons_of_mem _ hl2, p2, hp2, he⟩

/-- LEFT-zone detections sit strictly left of RIGHT-zone detections. -/
theorem left_min_x_le_right (l r : Detection) (w : ℚ) (hw : 0 < w)
    (hl : isLeftZone l w) (hr : isRightZone r w) : l.min_x ≤ r.min_x := by
  unfold isLeftZone at hl
  obtain ⟨-, hr⟩ := hr
  have h1 : l.min_x < 3/10 * w := by
    have := (div_lt_iff hw).mp hl
    linarith
  have h2 : 7/10 * w < r.min_x := by
    have := (lt_div_iff hw).mp hr
    linarith
  nlinarith

/-- Every line of the pairing stage is a lone LEFT, a `[left, right]` pair,
or a lone RIGHT. -/
theorem claimPairing_shape (dets : List Detection) (w : ℚ) :
    ∀ line ∈ claimPairing dets w,
      (∃ l, isLeftZone l w ∧ line = [l]) ∨
      (∃ l r, isLeftZone l w ∧ isRightZone r w ∧ line = [l, r]) ∨
      (∃ r, line = [r]) := by
  intro line h
  simp only [claimPairing] at h
  rcases List.mem_append.mp h with h1 | h1
  · rcases pairLefts_shape _ _ _ line h1 with ⟨l, hl, he⟩ | ⟨l, hl, p, hp, he⟩
    · refine Or.inl ⟨l, ?_, he⟩
      have := List.mem_filter.mp ((List.mem_insertionSort _).mp hl)
      exact of_decide_eq_true this.2
    · refine Or.inr (Or.inl ⟨l, p.2, ?_, ?_, he⟩)
      · have := List.mem_filter.mp ((List.mem_insertionSort _).mp hl)
        exact of_decide_eq_true this.2
      · have hmem : p.2 ∈ List.insertionSort (fun a b : Detection => a.center_y ≤ b.center_y)
            (dets.filter (fun d => decide (isRightZone d w))) := by
          rcases List.getElem?_eq_some.mp (List.mem_enum_iff_getElem?.mp hp) with ⟨hlt, hEq⟩
          exact hEq ▸ List.getElem_mem _
        have := List.mem_filter.mp ((List.mem_insertionSort _).mp hmem)
        exact of_decide_eq_true this.2
  · obtain ⟨p, hp, he⟩ := List.mem_map.mp h1
    exact Or.inr (Or.inr ⟨p.2, he.symm⟩)

def cokeDet : Detection :=
  { text := "COKE ZERO", min_x := 50, y_min := 100, y_max := 120, center_y := 110 }

def priceDet : Detection :=
  { text := "17.19", min_x := 900, y_min := 100, y_max := 120, center_y := 110 }

/-- C7: on a positive-width image whose detections are all LEFT-zone or
RIGHT-zone, the grouper returns exactly the lines of the claimed greedy
pairing — `[left, right]` pairs by ≥30% vertical overlap with first-match
consumption, unpaired LEFT detections alone, never-consumed RIGHT detections
as solitary lines — merely reordered top-to-bottom (a permutation).  In
particular a LEFT "COKE ZERO" and a RIGHT "17.19" at the same vertical
position on a 1000-unit-wide image group into one line. -/
theorem C7_grouper_matches_claim_pairing (detections : List Detection) (image_width : ℚ)
    (hw : 0 < image_width)
    (hzone : ∀ d ∈ detections, isLeftZone d image_width ∨ isRightZone d image_width) :
    (groupDetectionsByYOverlap detections image_width).Perm
      (claimPairing detections image_width) ∧
    groupDetectionsByYOverlap [cokeDet, priceDet] 1000 = [[cokeDet, priceDet]] := by
  constructor
  · by_cases hd : detections = []
    · subst hd
      simp [groupDetectionsByYOverlap, claimPairing, pairLefts]
    · have hmid : detections.filter (fun d => decide (isMiddleZone d image_width)) = [] := by
        rw [List.filter_eq_nil]
        intro d hdm
        rcases hzone d hdm with hL | hR
        · simp [isMiddleZone, hL]
        · simp [isMiddleZone, hR.2, hR.1]
      simp only [groupDetectionsByYOverlap, hmid, hd, if_false, List.foldl_nil]
      refine (List.perm_insertionSort _ _).trans ?_
      have hfix : (claimPairing detections image_width).map
          (List.insertionSort (fun a b : Detection => a.min_x ≤ b.min_x)) =
          claimPairing detections image_width := by
        conv_rhs => rw [← List.map_id (claimPairing detections image_width)]
        apply List.map_congr_left
        intro line hline
        rcases claimPairing_shape detections image_width line hline with
          ⟨l, hlz, he⟩ | ⟨l, r, hlz, hrz, he⟩ | ⟨r, he⟩
        · subst he
          simp [List.insertionSort, List.orderedInsert]
        · subst he
          simp [List.insertionSort, List.orderedInsert,
            left_min_x_le_right l r image_width hw hlz hrz]
        · subst he
          simp [List.insertionSort, List.orderedInsert]
      rw [hfix]
  · norm_num [groupDetectionsByYOverlap, claimPairing, pairLefts, firstUnassigned,
      boxesOverlapY, adaptiveMiddleYThreshold, attachMiddle, lineAvgCenterY,
      isLeftZone, isMiddleZone, isRightZone, cokeDet, priceDet, List.cons_ne_nil,
      List.insertionSort, List.orderedInsert, List.enum, List.enumFrom]

theorem C7_witness :
    (0 : ℚ) < 1000 ∧
    (∀ d ∈ [cokeDet, priceDet], isLeftZone d 1000 ∨ isRightZone d 1000) ∧
    (groupDetectionsByYOverlap [cokeDet, priceDet] 1000).Perm
      (claimPairing [cokeDet, priceDet] 1000) := by
  have hz : ∀ d ∈ [cokeDet, priceDet], isLeftZone d 1000 ∨ isRightZone d 1000 := by
    intro d hd
    rcases List.mem_cons.mp hd with rfl | hd2
    · left
      norm_num [isLeftZone, cokeDet]
    · rcases List.mem_cons.mp hd2 with rfl | hd3
      · right
        constructor <;> norm_num [isLeftZone, isRightZone, priceDet]
      · cases hd3
  exact ⟨by norm_num, hz,
    (C7_grouper_matches_claim_pairing [cokeDet, priceDet] 1000 (by norm_num) hz).1⟩

end Grouping

namespace Categories

/-
Shallow embedding of `src/receipt/item_categories.py` (fuzzy item
categorization).  Python floats are modeled as exact rationals `ℚ`; Python
`str` as `String`/`List Char`; Python sets of bigrams as deduplicated lists
(membership and cardinality agree with the set semantics).
`_char_similarity` is not embedded: `_fuzzy_contains` only ever calls
`_bigram_similarity`.
-/

def FUZZY_THRESHOLD_SHORT : ℚ := 3/4

def FUZZY_THRESHOLD_MEDIUM : ℚ := 4/5

def FUZZY_THRESHOLD_LONG : ℚ := 7/10

def EXACT_MATCH_BONUS : Int := 1000

def PRIORITY_SCORE_MULTIPLIER : Int := 10000

/-- Python `s.upper()` on a character list. -/
def upperList (s : List Char) : List Char := s.map Char.toUpper

/-- Python `s.replace(" ", "")`: removes exactly the space character. -/
def removeSpaces (s : List Char) : List Char := s.filter (fun c => c ≠ ' ')

/-- Python regex `\b` at offset `p` of `s`: a word character on exactly one
side of the position. -/
def boundaryAt (s : List Char) (p : Nat) : Bool :=
  let leftW := if p = 0 then false else
    match s[p - 1]? with
    | some c => Formatter.isWordChar c
    | none => false
  let rightW := match s[p]? with
    | some c => Formatter.isWordChar c
    | none => false
  leftW != rightW

/-- Worker for `wbSearch`, trying candidate offsets `p, p+1, ...`. -/
def wbSearchGo (kw s : List Char) : Nat → Nat → Option Nat
  | 0, _ => none
  | fuel + 1, p =>
    if (s.drop p).take kw.length = kw ∧ boundaryAt s p = true ∧
        boundaryAt s (p + kw.length) = true then
      some p
    else wbSearchGo kw s fuel (p + 1)

/-- Python `re.search(r"\b" + re.escape(kw) + r"\b", s)` with `match.start()`:
leftmost offset where `kw` occurs with word boundaries on both sides. -/
def wbSearch (kw s : List Char) : Option Nat := wbSearchGo kw s (s.length + 1) 0

/-- Boolean prefix test, used to model Python `str.find`. -/
def isPrefixAt : List Char → List Char → Bool
  | [], _ => true
  | _ :: _, [] => false
  | a :: as, b :: bs => a == b && isPrefixAt as bs

/-- Worker for `strFind`. -/
def strFindGo (kw : List Char) : List Char → Nat → Option Nat
  | [], p => if kw = [] then some p else none
  | c :: rest, p =>
    if isPrefixAt kw (c :: rest) then some p else strFindGo kw rest (p + 1)

/-- Python `s.find(kw)`: index of the leftmost occurrence, or `none`
(`-1` in Python). -/
def strFind (kw s : List Char) : Option Nat := strFindGo kw s 0

/-- The bigram set `{s[i:i+2] for i in range(len(s) - 1)}` as a deduplicated
list of character pairs. -/
def bigrams (s : List Char) : List (Char × Char) := (s.zip s.tail).dedup

/-- `_bigram_similarity`: ratio of common bigrams to keyword bigrams.  The
degenerate `len(s1) < 2` branch is Python's substring test `s1 in s2`. -/
def bigram_similarity (s1 s2 : List Char) : ℚ :=
  if s1.length < 2 then (if s1 <:+: s2 then 1 else 0)
  else if bigrams s1 = [] then 0
  else (((bigrams s1).filter (fun x => x ∈ bigrams s2)).length : ℚ) /
    ((bigrams s1).length : ℚ)

/-- `_get_threshold`: fuzzy threshold by keyword length. -/
def get_threshold (kw_len : Nat) : ℚ :=
  if kw_len ≤ 4 then FUZZY_THRESHOLD_SHORT
  else if kw_len ≤ 6 then FUZZY_THRESHOLD_MEDIUM
  else FUZZY_THRESHOLD_LONG

/-- The sliding-window loop of `_fuzzy_contains`: tracks
`(best_similarity, best_position)`, starting from `(0.0, -1)` and improving
only on strictly greater similarity (so the earliest best window wins). -/
def slideGo (kw desc : List Char) (windowSize : Nat) :
    Nat → Nat → ℚ × Int → ℚ × Int
  | 0, _, best => best
  | fuel + 1, start, best =>
    let window := (desc.drop start).take windowSize
    let similarity := bigram_similarity kw window
    let best2 := if best.1 < similarity then (similarity, (start : Int)) else best
    slideGo kw desc windowSize fuel (start + 1) best2

/-- `_fuzzy_contains(keyword, description, threshold)`, returning
`(matched, position, is_exact)`; unmatched position is `-1`.  Keywords whose
space-stripped length is at most 3 use whole-word regex search on the raw
uppercased description; longer keywords use exact containment on the
space-stripped strings and then the bigram sliding window
(`window_size = kw_len + 1`, starts `range(len(desc) - kw_len + 2)`). -/
def fuzzy_contains (keyword description : String) (threshold : Option ℚ) :
    Bool × Int × Bool :=
  let desc_raw := upperList description.toList
  let kw_raw := Writer.pyStrip (upperList keyword.toList)
  let kw_len_raw := (removeSpaces kw_raw).length
  if kw_len_raw ≤ 3 then
    match wbSearch kw_raw desc_raw with
    | some p => (true, (p : Int), true)
    | none => (false, -1, false)
  else
    let desc := removeSpaces desc_raw
    let kw := removeSpaces kw_raw
    match strFind kw desc with
    | some exact_pos => (true, (exact_pos : Int), true)
    | none =>
      let kw_len := kw.length
      let t := threshold.getD (get_threshold kw_len)
      if 1 ≤ t then (false, -1, false)
      else
        let best := slideGo kw desc (kw_len + 1) (desc.length + 2 - kw_len) 0 (0, -1)
        if t ≤ best.1 then (true, best.2, false) else (false, -1, false)

/-- The candidate score assembled in `_find_all_matches`:
`len(kw.replace(" ", "")) * 10 + position + priority * PRIORITY_SCORE_MULTIPLIER`,
plus `EXACT_MATCH_BONUS` when the match was exact. -/
def matchScore (kw : String) (position priority : Int) (is_exact : Bool) : Int :=
  ((removeSpaces kw.toList).length : Int) * 10 + position +
    priority * PRIORITY_SCORE_MULTIPLIER +
    (if is_exact then EXACT_MATCH_BONUS else 0)

/-- A rule entry `(keywords, category, priority)`. -/
abbrev RuleEntry := List String × String × Int

/-- The inner keyword loop of `_find_all_matches` with its `break`: the first
keyword of the rule that matches, with its position and exactness.  A keyword
in `exact_only_keywords` is looked up with threshold `1.0`. -/
def firstKeywordHit (description : String) (exact_only_keywords : List String) :
    List String → Option (String × Int × Bool)
  | [] => none
  | kw :: rest =>
    let threshold : Option ℚ := if kw ∈ exact_only_keywords then some 1 else none
    let r := fuzzy_contains kw description threshold
    if r.1 then some (kw, r.2.1, r.2.2)
    else firstKeywordHit description exact_only_keywords rest

/-- `_find_all_matches`: one `(score, category, keyword, position)` entry per
rule whose keyword list produced a match. -/
def find_all_matches (description : String) (rules : List RuleEntry)
    (exact_only_keywords : List String) : List (Int × String × String × Int) :=
  rules.filterMap fun rule =>
    (firstKeywordHit description exact_only_keywords rule.1).map fun hit =>
      (matchScore hit.1 hit.2.1 rule.2.2 hit.2.2, rule.2.1, hit.1, hit.2.1)

/-- `matches.sort(key=lambda x: x[0], reverse=True)`: a stable descending sort
by score (insertion sort is stable, like Python's sort). -/
def sortByScoreDesc (l : List (Int × String × String × Int)) :
    List (Int × String × String × Int) :=
  List.insertionSort (fun a b => b.1 ≤ a.1) l

/-- `classify_item_key`: category of the best-scoring match, else the default
(an empty match list sorts to an empty list, so the two `match` arms cover
Python's early `return default`). -/
def classify_item_key (description : String) (default : Option String)
    (rules : List RuleEntry) (exact_only_keywords : List String) : Option String :=
  match sortByScoreDesc (find_all_matches description rules exact_only_keywords) with
  | [] => default
  | m :: _ => some m.2.1

theorem isPrefixAt_length : ∀ (a b : List Char), isPrefixAt a b = true →
    a.length ≤ b.length := by
  intro a
  induction a with
  | nil => intro b _; simp
  | cons x xs ih =>
    intro b h
    cases b with
    | nil => simp [isPrefixAt] at h
    | cons y ys =>
      simp only [isPrefixAt, Bool.and_eq_true] at h
      simpa using ih ys h.2

theorem wbSearchGo_some_lt (kw s : List Char) :
    ∀ (fuel p q : Nat), wbSearchGo kw s fuel p = some q → p ≤ q ∧ q < p + fuel := by
  intro fuel
  induction fuel with
  | zero => intro p q h; simp [wbSearchGo] at h
  | succ n ih =>
    intro p q h
    simp only [wbSearchGo] at h
    split at h
    · cases h; omega
    · have := ih (p + 1) q h; omega

theorem strFindGo_some_spec (kw : List Char) :
    ∀ (s : List Char) (p q : Nat), strFindGo kw s p = some q →
      p ≤ q ∧ (q - p) + kw.length ≤ s.length := by
  intro s
  induction s with
  | nil =>
    intro p q h
    simp only [strFindGo] at h
    split at h
    · cases h
      rename_i hk
      simp [hk]
    · simp at h
  | cons c rest ih =>
    intro p q h
    simp only [strFindGo] at h
    split at h
    · cases h
      rename_i hpre
      have := isPrefixAt_length kw (c :: rest) hpre
      simp at this ⊢
      omega
    · have := ih (p + 1) q h
      simp only [List.length_cons]
      omega

theorem bigram_similarity_le_one (s1 s2 : List Char) :
    bigram_similarity s1 s2 ≤ 1 := by
  unfold bigram_similarity
  split
  · split <;> norm_num
  · split
    · norm_num
    · rename_i hne
      apply div_le_one_of_le₀
      · exact_mod_cast List.length_filter_le _ _
      · positivity

theorem slideGo_ge_and_pos (kw desc : List Char) (windowSize : Nat) :
    ∀ (fuel start : Nat) (bs : ℚ) (bp : Int),
      bs ≤ (slideGo kw desc windowSize fuel start (bs, bp)).1 ∧
      (slideGo kw desc windowSize fuel start (bs, bp) = (bs, bp) ∨
        (0 ≤ (slideGo kw desc windowSize fuel start (bs, bp)).2 ∧
         (slideGo kw desc windowSize fuel start (bs, bp)).2 <
           (start : Int) + (fuel : Int))) := by
  intro fuel
  induction fuel with
  | zero =>
    intro start bs bp
    constructor
    · simp [slideGo]
    · left; simp [slideGo]
  | succ n ih =>
    intro start bs bp
    simp only [slideGo]
    by_cases hlt : bs < bigram_similarity kw ((desc.drop start).take windowSize)
    · rw [if_pos hlt]
      obtain ⟨h1, h2⟩ := ih (start + 1)
        (bigram_similarity kw ((desc.drop start).take windowSize)) (start : Int)
      refine ⟨le_trans (le_of_lt hlt) h1, Or.inr ?_⟩
      rcases h2 with heq | ⟨hge, hlt2⟩
      · rw [heq]
        constructor
        · exact Int.natCast_nonneg start
        · push_cast; omega
      · refine ⟨hge, ?_⟩
        push_cast at hlt2 ⊢
        omega
    · rw [if_neg hlt]
      obtain ⟨h1, h2⟩ := ih (start + 1) bs bp
      refine ⟨h1, ?_⟩
      rcases h2 with heq | ⟨hge, hlt2⟩
      · exact Or.inl heq
      · refine Or.inr ⟨hge, ?_⟩
        push_cast at hlt2 ⊢
        omega

theorem get_threshold_pos (n : Nat) : 0 < get_threshold n := by
  unfold get_threshold FUZZY_THRESHOLD_SHORT FUZZY_THRESHOLD_MEDIUM FUZZY_THRESHOLD_LONG
  split
  · norm_num
  · split <;> norm_num

/-- Any matched `_fuzzy_contains` result has a nonnegative position bounded by
the description length; an exact match is either a short whole-word match or
an occurrence inside the space-stripped description; a fuzzy match comes from
a keyword of despaced length at least 4 whose window fits the despaced
description (position + keyword length ≤ length + 1). -/
theorem fuzzy_contains_matched_bounds (keyword description : String)
    (threshold : Option ℚ) (pos : Int) (is_exact : Bool)
    (hthr : threshold = none ∨ threshold = some 1)
    (h : fuzzy_contains keyword description threshold = (true, pos, is_exact)) :
    (0 ≤ pos ∧ pos ≤ (description.toList.length : Int)) ∧
    (is_exact = true →
      (removeSpaces (Writer.pyStrip (upperList keyword.toList))).length ≤ 3 ∨
      pos + ((removeSpaces (Writer.pyStrip (upperList keyword.toList))).length : Int)
        ≤ ((removeSpaces (upperList description.toList)).length : Int)) ∧
    (is_exact = false →
      4 ≤ (removeSpaces (Writer.pyStrip (upperList keyword.toList))).length ∧
      pos + ((removeSpaces (Writer.pyStrip (upperList keyword.toList))).length : Int)
        ≤ ((removeSpaces (upperList description.toList)).length : Int) + 1) := by
  have hSle : (removeSpaces (upperList description.toList)).length ≤
      description.toList.length := by
    calc (removeSpaces (upperList description.toList)).length
        ≤ (upperList description.toList).length := List.length_filter_le _ _
      _ = description.toList.length := List.length_map _ _
  have hRaw : (upperList description.toList).length = description.toList.length :=
    List.length_map _ _
  simp only [fuzzy_contains] at h
  split at h
  · -- short keyword: whole-word search on the raw description
    rename_i hshort
    split at h
    · rename_i p hp
      injection h with h1 h23
      injection h23 with h2 h3
      subst h2; subst h3
      have hb := wbSearchGo_some_lt _ _ _ _ _ hp
      refine ⟨⟨Int.natCast_nonneg p, ?_⟩, fun _ => Or.inl hshort, fun hc => by simp at hc⟩
      omega
    · exact absurd (congrArg Prod.fst h) (by simp)
  · -- long keyword
    rename_i hlong
    split at h
    · -- exact containment in the despaced strings
      rename_i q hq
      injection h with h1 h23
      injection h23 with h2 h3
      subst h2; subst h3
      have hb := strFindGo_some_spec _ _ _ _ hq
      refine ⟨⟨Int.natCast_nonneg q, ?_⟩, fun _ => Or.inr ?_, fun hc => by simp at hc⟩
      · omega
      · omega
    · rename_i hnone
      split at h
      · exact absurd (congrArg Prod.fst h) (by simp)
      · rename_i ht1
        split at h
        · rename_i hbestge
          injection h with h1 h23
          injection h23 with h2 h3
          subst h2; subst h3
          have ht0 : 0 < threshold.getD
              (get_threshold (removeSpaces (Writer.pyStrip (upperList keyword.toList))).length) := by
            rcases hthr with h' | h' <;> subst h'
            · simpa using get_threshold_pos _
            · simp at ht1
          obtain ⟨hge, hor⟩ := slideGo_ge_and_pos
            (removeSpaces (Writer.pyStrip (upperList keyword.toList)))
            (removeSpaces (upperList description.toList))
            ((removeSpaces (Writer.pyStrip (upperList keyword.toList))).length + 1)
            ((removeSpaces (upperList description.toList)).length + 2 -
              (removeSpaces (Writer.pyStrip (upperList keyword.toList))).length)
            0 0 (-1)
          rcases hor with heq | ⟨hpos, hlt⟩
          · rw [heq] at hbestge
            exact absurd (lt_of_lt_of_le ht0 hbestge) (by norm_num)
          · have h4 : 4 ≤ (removeSpaces (Writer.pyStrip (upperList keyword.toList))).length := by
              omega
            refine ⟨⟨hpos, ?_⟩, fun hc => by simp at hc, fun _ => ⟨h4, ?_⟩⟩
            · omega
            · omega
        · exact absurd (congrArg Prod.fst h) (by simp)

/-- Score bound for any match: below the next priority band; and a fuzzy match
on a ≤98-character description scores below the exact-match bonus of the same
priority band.  The `hkw` hypothesis says stripping/uppercasing the keyword
does not change its despaced content (true of any real keyword whose
whitespace is plain spaces). -/
theorem matched_score_bound (keyword description : String) (threshold : Option ℚ)
    (pos : Int) (is_exact : Bool) (priority : Int)
    (hthr : threshold = none ∨ threshold = some 1)
    (hdesc : description.toList.length ≤ 98)
    (hkw : removeSpaces (Writer.pyStrip (upperList keyword.toList)) =
      upperList (removeSpaces keyword.toList))
    (h : fuzzy_contains keyword description threshold = (true, pos, is_exact)) :
    matchScore keyword pos priority is_exact <
      priority * PRIORITY_SCORE_MULTIPLIER + PRIORITY_SCORE_MULTIPLIER ∧
    (is_exact = false →
      matchScore keyword pos priority is_exact <
        priority * PRIORITY_SCORE_MULTIPLIER + EXACT_MATCH_BONUS) := by
  obtain ⟨⟨hpos0, hposle⟩, hex, hfz⟩ :=
    fuzzy_contains_matched_bounds keyword description threshold pos is_exact hthr h
  have hlen_eq : (removeSpaces (Writer.pyStrip (upperList keyword.toList))).length =
      (removeSpaces keyword.toList).length := by
    rw [hkw]; exact List.length_map _ _
  have hSle : (removeSpaces (upperList description.toList)).length ≤
      description.toList.length := by
    calc (removeSpaces (upperList description.toList)).length
        ≤ (upperList description.toList).length := List.length_filter_le _ _
      _ = description.toList.length := List.length_map _ _
  cases is_exact with
  | true =>
    rcases hex rfl with hshort | hcont
    · simp only [matchScore, EXACT_MATCH_BONUS, PRIORITY_SCORE_MULTIPLIER, if_true]
      constructor
      · omega
      · intro hc; simp at hc
    · simp only [matchScore, EXACT_MATCH_BONUS, PRIORITY_SCORE_MULTIPLIER, if_true]
      constructor
      · omega
      · intro hc; simp at hc
  | false =>
    obtain ⟨h4, hwin⟩ := hfz rfl
    simp only [matchScore, EXACT_MATCH_BONUS, PRIORITY_SCORE_MULTIPLIER,
      Bool.false_eq_true, if_false]
    constructor
    · omega
    · intro _; omega

instance : IsTotal (Int × String × String × Int) (fun a b => b.1 ≤ a.1) :=
  ⟨fun a b => le_total b.1 a.1⟩

instance : IsTrans (Int × String × String × Int) (fun a b => b.1 ≤ a.1) :=
  ⟨fun _ _ _ hab hbc => le_trans hbc hab⟩

/-- `classify_item_key` returns the category of a maximal-score entry of
`_find_all_matches` whenever there is any match. -/
theorem classify_item_key_max (description : String) (default : Option String)
    (rules : List RuleEntry) (exact_only_keywords : List String)
    (hne : find_all_matches description rules exact_only_keywords ≠ []) :
    ∃ m ∈ find_all_matches description rules exact_only_keywords,
      classify_item_key description default rules exact_only_keywords = some m.2.1 ∧
      ∀ x ∈ find_all_matches description rules exact_only_keywords, x.1 ≤ m.1 := by
  have hperm : (sortByScoreDesc (find_all_matches description rules exact_only_keywords)).Perm
      (find_all_matches description rules exact_only_keywords) :=
    List.perm_insertionSort _ _
  have hsne : sortByScoreDesc (find_all_matches description rules exact_only_keywords) ≠ [] := by
    intro hnil
    rw [hnil] at hperm
    exact hne (List.Perm.nil_eq hperm).symm
  obtain ⟨m, rest, hcons⟩ := List.exists_cons_of_ne_nil hsne
  have hsorted : List.Sorted (fun a b : Int × String × String × Int => b.1 ≤ a.1)
      (sortByScoreDesc (find_all_matches description rules exact_only_keywords)) :=
    List.sorted_insertionSort _ _
  rw [hcons] at hsorted hperm
  refine ⟨m, hperm.mem_iff.mp (List.mem_cons_self m rest), ?_, ?_⟩
  · simp only [classify_item_key, hcons]
  · intro x hx
    have hx2 : x ∈ m :: rest := hperm.mem_iff.mpr hx
    rcases List.mem_cons.mp hx2 with hxm | hxr
    · exact le_of_eq (congrArg Prod.fst hxm)
    · exact (List.sorted_cons.mp hsorted).1 x hxr

/-- C8: amended claim.  (1) the categorizer returns the category of a
highest-scoring candidate; (2) on descriptions of at most 98 characters an
exact match always outscores a fuzzy match of the same priority; (3) on such
descriptions a higher-priority rule always outscores a lower-priority one.
The keyword hypotheses hold for any keyword whose whitespace consists of
plain spaces; the thresholds are the only two values `_find_all_matches`
passes. -/
theorem C8_amended_scoring_and_bounded_dominance :
    (∀ (description : String) (default : Option String) (rules : List RuleEntry)
      (exact_only_keywords : List String),
      find_all_matches description rules exact_only_keywords ≠ [] →
      ∃ m ∈ find_all_matches description rules exact_only_keywords,
        classify_item_key description default rules exact_only_keywords = some m.2.1 ∧
        ∀ x ∈ find_all_matches description rules exact_only_keywords, x.1 ≤ m.1) ∧
    (∀ (description kw1 kw2 : String) (thr1 thr2 : Option ℚ) (pos1 pos2 priority : Int),
      (thr1 = none ∨ thr1 = some 1) → (thr2 = none ∨ thr2 = some 1) →
      description.toList.length ≤ 98 →
      removeSpaces (Writer.pyStrip (upperList kw2.toList)) =
        upperList (removeSpaces kw2.toList) →
      fuzzy_contains kw1 description thr1 = (true, pos1, true) →
      fuzzy_contains kw2 description thr2 = (true, pos2, false) →
      matchScore kw2 pos2 priority false < matchScore kw1 pos1 priority true) ∧
    (∀ (description kw1 kw2 : String) (thr1 thr2 : Option ℚ) (pos1 pos2 : Int)
      (e1 e2 : Bool) (p1 p2 : Int),
      (thr1 = none ∨ thr1 = some 1) → (thr2 = none ∨ thr2 = some 1) →
      description.toList.length ≤ 98 →
      removeSpaces (Writer.pyStrip (upperList kw2.toList)) =
        upperList (removeSpaces kw2.toList) →
      p2 < p1 →
      fuzzy_contains kw1 description thr1 = (true, pos1, e1) →
      fuzzy_contains kw2 description thr2 = (true, pos2, e2) →
      matchScore kw2 pos2 p2 e2 < matchScore kw1 pos1 p1 e1) := by
  refine ⟨classify_item_key_max, ?_, ?_⟩
  · intro description kw1 kw2 thr1 thr2 pos1 pos2 priority hthr1 hthr2 hd hk h1 h2
    have hb2 := (matched_score_bound kw2 description thr2 pos2 false priority
      hthr2 hd hk h2).2 rfl
    have hb1 := (fuzzy_contains_matched_bounds kw1 description thr1 pos1 true hthr1 h1).1.1
    simp only [matchScore, EXACT_MATCH_BONUS, PRIORITY_SCORE_MULTIPLIER,
      Bool.false_eq_true, if_false, if_true] at hb2 ⊢
    omega
  · intro description kw1 kw2 thr1 thr2 pos1 pos2 e1 e2 p1 p2 hthr1 hthr2 hd hk hp h1 h2
    have hb2 := (matched_score_bound kw2 description thr2 pos2 e2 p2 hthr2 hd hk h2).1
    have hb1 := (fuzzy_contains_matched_bounds kw1 description thr1 pos1 e1 hthr1 h1).1.1
    simp only [matchScore, EXACT_MATCH_BONUS, PRIORITY_SCORE_MULTIPLIER] at hb2 ⊢
    cases e1 <;> cases e2 <;> simp at hb2 ⊢ <;> omega

/-- Keyword of the built-in-style exact rule in the C8 counterexample. -/
def c8KwExact : String := "AA"

/-- A 110-character keyword `"AB" * 55` for the fuzzy rule. -/
def c8KwLong : String := String.mk ((List.replicate 55 ['A', 'B']).flatten)

/-- Description `"AA " ++ "ABBA" * 28` (115 characters): `"AA"` matches
exactly at position 0; the long keyword matches only fuzzily. -/
def c8Desc : String := String.mk ('A' :: 'A' :: ' ' :: (List.replicate 28 ['A', 'B', 'B', 'A']).flatten)

def c8Rules : List RuleEntry := [([c8KwExact], "catExact", 0), ([c8KwLong], "catFuzzy", 0)]

/-- The despaced uppercased long keyword. -/
def c8KwS : List Char := (List.replicate 55 ['A', 'B']).flatten

/-- The despaced uppercased description. -/
def c8DescS : List Char := 'A' :: 'A' :: (List.replicate 28 ['A', 'B', 'B', 'A']).flatten

theorem slideGo_no_improve (kw desc : List Char) (windowSize : Nat)
    (hle : ∀ k, bigram_similarity kw ((desc.drop k).take windowSize) ≤ 1) :
    ∀ (fuel start : Nat) (p : Int),
      slideGo kw desc windowSize fuel start (1, p) = (1, p) := by
  intro fuel
  induction fuel with
  | zero => intro start p; rfl
  | succ n ih =>
    intro start p
    simp only [slideGo]
    have hc : ¬ ((1 : ℚ), p).1 < bigram_similarity kw ((desc.drop start).take windowSize) := by
      simpa using not_lt.mpr (hle start)
    rw [if_neg hc]
    exact ih (start + 1) p

theorem slideGo_first_one (kw desc : List Char) (windowSize : Nat)
    (hle : ∀ k, bigram_similarity kw ((desc.drop k).take windowSize) ≤ 1)
    (fuel start : Nat)
    (h1 : bigram_similarity kw ((desc.drop start).take windowSize) = 1) :
    slideGo kw desc windowSize (fuel + 1) start (0, -1) = (1, (start : Int)) := by
  simp only [slideGo]
  have hc : ((0 : ℚ), (-1 : Int)).1 <
      bigram_similarity kw ((desc.drop start).take windowSize) := by
    rw [h1]; norm_num
  rw [if_pos hc, h1]
  exact slideGo_no_improve kw desc windowSize hle fuel (start + 1) (start : Int)

theorem c8_long_fuzzy : fuzzy_contains c8KwLong c8Desc none = (true, 0, false) := by
  have hkwS : removeSpaces (Writer.pyStrip (upperList c8KwLong.toList)) = c8KwS := by decide
  have hdescS : removeSpaces (upperList c8Desc.toList) = c8DescS := by decide
  have hfind : strFind c8KwS c8DescS = none := by decide
  have hkwlen : c8KwS.length = 110 := by decide
  have hdesclen : c8DescS.length = 114 := by decide
  have hble : ∀ k, bigram_similarity c8KwS ((c8DescS.drop k).take 111) ≤ 1 :=
    fun k => bigram_similarity_le_one _ _
  have h0 : bigram_similarity c8KwS ((c8DescS.drop 0).take 111) = 1 := by
    have e1 : ¬ c8KwS.length < 2 := by decide
    have e2 : ¬ bigrams c8KwS = [] := by decide
    have e3 : ((bigrams c8KwS).filter
        (fun x => x ∈ bigrams ((c8DescS.drop 0).take 111))).length = 2 := by decide
    have e4 : (bigrams c8KwS).length = 2 := by decide
    unfold bigram_similarity
    rw [if_neg e1, if_neg e2, e3, e4]
    norm_num
  have hslide : slideGo c8KwS c8DescS 111 6 0 (0, -1) = (1, 0) := by
    have := slideGo_first_one c8KwS c8DescS 111 hble 5 0 h0
    simpa using this
  simp only [fuzzy_contains, hkwS, hdescS, hkwlen, hdesclen, hfind, Option.getD]
  norm_num [get_threshold, FUZZY_THRESHOLD_SHORT, FUZZY_THRESHOLD_MEDIUM,
    FUZZY_THRESHOLD_LONG, hslide]

/-- C8: counterexample to "exact matches always outrank fuzzy matches".  With
an exact whole-word match of `"AA"` at position 0 and a 110-character keyword
matching fuzzily at position 0, both at priority 0, the fuzzy candidate scores
1100 against the exact candidate's 1020 (the exact bonus is only 1000), so the
categorizer returns the fuzzy rule's category. -/
theorem C8_counterexample :
    fuzzy_contains c8KwExact c8Desc none = (true, 0, true) ∧
    fuzzy_contains c8KwLong c8Desc none = (true, 0, false) ∧
    matchScore c8KwExact 0 0 true = 1020 ∧
    matchScore c8KwLong 0 0 false = 1100 ∧
    find_all_matches c8Desc c8Rules [] =
      [(1020, "catExact", c8KwExact, 0), (1100, "catFuzzy", c8KwLong, 0)] ∧
    classify_item_key c8Desc none c8Rules [] = some "catFuzzy" := by
  have hh1 : firstKeywordHit c8Desc [] [c8KwExact] = some (c8KwExact, 0, true) := by
    decide
  have hh2 : firstKeywordHit c8Desc [] [c8KwLong] = some (c8KwLong, 0, false) := by
    simp only [firstKeywordHit, List.not_mem_nil, if_false, c8_long_fuzzy]
    rfl
  have hf : find_all_matches c8Desc c8Rules [] =
      [(1020, "catExact", c8KwExact, 0), (1100, "catFuzzy", c8KwLong, 0)] := by
    simp only [find_all_matches, c8Rules, List.filterMap_cons, List.filterMap_nil,
      hh1, hh2, Option.map_some]
    decide
  have hc : classify_item_key c8Desc none c8Rules [] = some "catFuzzy" := by
    simp only [classify_item_key, hf]
    decide
  exact ⟨by decide, c8_long_fuzzy, by decide, by decide, hf, hc⟩

/-- Witness description `"AB AABBA"`: `"AB"` matches exactly, `"AABA"`
matches fuzzily (first window `"ABAAB"` shares all three keyword bigrams). -/
def c8wDesc : String := "AB AABBA"

def c8wKw1 : String := "AB"

def c8wKw2 : String := "AABA"

def c8wRules : List RuleEntry := [([c8wKw1], "catExact", 0)]

def c8wKwS : List Char := ['A', 'A', 'B', 'A']

def c8wDescS : List Char := ['A', 'B', 'A', 'A', 'B', 'B', 'A']

theorem C8_amended_witness :
    (c8wDesc.toList.length ≤ 98 ∧
      fuzzy_contains c8wKw1 c8wDesc none = (true, 0, true) ∧
      fuzzy_contains c8wKw2 c8wDesc none = (true, 0, false) ∧
      matchScore c8wKw2 0 0 false < matchScore c8wKw1 0 0 true) ∧
    (find_all_matches c8wDesc c8wRules [] ≠ [] ∧
      ∃ m ∈ find_all_matches c8wDesc c8wRules [],
        classify_item_key c8wDesc none c8wRules [] = some m.2.1 ∧
        ∀ x ∈ find_all_matches c8wDesc c8wRules [], x.1 ≤ m.1) := by
  have hfz : fuzzy_contains c8wKw2 c8wDesc none = (true, 0, false) := by
    have hkwS : removeSpaces (Writer.pyStrip (upperList c8wKw2.toList)) = c8wKwS := by decide
    have hdescS : removeSpaces (upperList c8wDesc.toList) = c8wDescS := by decide
    have hfind : strFind c8wKwS c8wDescS = none := by decide
    have hkwlen : c8wKwS.length = 4 := by decide
    have hdesclen : c8wDescS.length = 7 := by decide
    have hble : ∀ k, bigram_similarity c8wKwS ((c8wDescS.drop k).take 5) ≤ 1 :=
      fun k => bigram_similarity_le_one _ _
    have h0 : bigram_similarity c8wKwS ((c8wDescS.drop 0).take 5) = 1 := by
      have e1 : ¬ c8wKwS.length < 2 := by decide
      have e2 : ¬ bigrams c8wKwS = [] := by decide
      have e3 : ((bigrams c8wKwS).filter
          (fun x => x ∈ bigrams ((c8wDescS.drop 0).take 5))).length = 3 := by decide
      have e4 : (bigrams c8wKwS).length = 3 := by decide
      unfold bigram_similarity
      rw [if_neg e1, if_neg e2, e3, e4]
      norm_num
    have hslide : slideGo c8wKwS c8wDescS 5 5 0 (0, -1) = (1, 0) := by
      have := slideGo_first_one c8wKwS c8wDescS 5 hble 4 0 h0
      simpa using this
    simp only [fuzzy_contains, hkwS, hdescS, hkwlen, hdesclen, hfind, Option.getD]
    norm_num [get_threshold, FUZZY_THRESHOLD_SHORT, FUZZY_THRESHOLD_MEDIUM,
      FUZZY_THRESHOLD_LONG, hslide]
  refine ⟨⟨by decide, by decide, hfz, ?_⟩, by decide, ?_⟩
  · exact C8_amended_scoring_and_bounded_dominance.2.1 c8wDesc c8wKw1 c8wKw2 none none
      0 0 0 (Or.inl rfl) (Or.inl rfl) (by decide) (by decide) (by decide) hfz
  · exact C8_amended_scoring_and_bounded_dominance.1 c8wDesc none c8wRules [] (by decide)

end Categories

namespace TextItems

/-
Shallow embedding of `_extract_items` in
`src/receipt/ocr_parser/items_text_parser.py` and the helpers it uses from
`src/receipt/ocr_parser/common.py`.

Conventions, in addition to the file-wide ones:

* Money is handled in integer cents (`Int`): every amount the function
  compares comes from a `\d+\.\d{2}` regex group, so `Decimal` arithmetic and
  the `$0.02` validation tolerance are exact in cents; the final
  `ReceiptItem.price` converts cents to `ℚ` via `centsToRat`.
* Each regular expression of the source is compiled by hand into a character
  scanner.  Greedy classes followed by a class that cannot overlap them need
  no backtracking; the one real backtracking case (the `(\d+\.?\d*)` weight
  group, whose successor `1b`/`1k` can start with a digit) enumerates group
  candidates longest-first exactly as the regex engine does.
* `warning_sink` only appends warnings and never changes the returned items,
  so it is not modelled; `categorize_item` is passed in as an opaque
  `categorize` function (its rule layers are the `Categories` embedding).
* `summary_amounts` is the set of summary amounts in cents.
-/

/-- Digit run to a number (`int(...)` on a regex group). -/
def natFromDigits (ds : List Char) : Nat := ds.foldl (fun n c => 10 * n + (c.toNat - 48)) 0

/-- `price * 100` cents back to the `Decimal` it denotes. -/
def centsToRat (c : Int) : ℚ := (c : ℚ) / 100

/-- The `[HhTtJj]` tax-marker class. -/
def isTaxChar (c : Char) : Bool := c = 'H' || c = 'h' || c = 'T' || c = 't' || c = 'J' || c = 'j'

/-- `pat in s` (substring containment). -/
def containsSub (pat s : List Char) : Bool := (Categories.strFind pat s).isSome

/-- `s.startswith(pat)` / an anchored `re.match` prefix literal. -/
def startsWithSub (pat s : List Char) : Bool := Categories.isPrefixAt pat s

/-- `s.endswith(pat)` / `pat$`. -/
def endsWithSub (pat s : List Char) : Bool := Categories.isPrefixAt pat.reverse s.reverse

/-- `re.search(r"\bpat\b", s)` as a Bool. -/
def wordSearch (pat s : List Char) : Bool := (Categories.wbSearch pat s).isSome

/-- `a\s*b` (or `a\s+b` when `reqWs`) anchored at the start of `s`. -/
def matchGapAt (a : List Char) (reqWs : Bool) (b s : List Char) : Bool :=
  if Categories.isPrefixAt a s then
    let r := s.drop a.length
    let r2 := r.dropWhile Char.isWhitespace
    (!reqWs || r.length != r2.length) && Categories.isPrefixAt b r2
  else false

/-- `re.search` of `a\s*b` / `a\s+b`. -/
def searchGap (a : List Char) (reqWs : Bool) (b : List Char) : List Char → Bool
  | [] => matchGapAt a reqWs b []
  | c :: rest => matchGapAt a reqWs b (c :: rest) || searchGap a reqWs b rest

/-- `a\s+b\s+c` anchored at the start of `s`. -/
def matchGap3At (a b c s : List Char) : Bool :=
  if Categories.isPrefixAt a s then
    let r := s.drop a.length
    let r2 := r.dropWhile Char.isWhitespace
    (r.length != r2.length) && matchGapAt b true c r2
  else false

/-- `re.search` of `a\s+b\s+c`. -/
def searchGap3 (a b c : List Char) : List Char → Bool
  | [] => matchGap3At a b c []
  | ch :: rest => matchGap3At a b c (ch :: rest) || searchGap3 a b c rest

/-- `\d+%$`: ends with a digit directly followed by a final percent sign. -/
def digitPercentEnd (s : List Char) : Bool :=
  match s.reverse with
  | '%' :: c :: _ => c.isDigit
  | _ => false

/-- `^PC\s+\d`. -/
def pcCardStart (s : List Char) : Bool :=
  if Categories.isPrefixAt ['P', 'C'] s then
    let r := s.drop 2
    let r2 := r.dropWhile Char.isWhitespace
    (r.length != r2.length) && (match r2 with | c :: _ => c.isDigit | [] => false)
  else false

/-- The `skip_regex` alternation of `_extract_items` (all patterns are
case-insensitive, so everything is matched on the uppercased line; anchored
`^...$` patterns become equality since OCR lines contain no newline). -/
def skipRegexSearch (line : List Char) : Bool :=
  let u := Categories.upperList line
  containsSub "TOTAL".toList u ||
  containsSub "SUBTOTAL".toList u ||
  searchGap "SUB".toList true "TOTAL".toList u ||
  (searchGap "TOTALS".toList true "ON".toList u || searchGap "TOTAL".toList true "ON".toList u) ||
  decide (u = "TAX".toList) ||
  startsWithSub "HST".toList u || startsWithSub "GST".toList u || startsWithSub "PST".toList u ||
  searchGap "AFTER".toList true "TAX".toList u ||
  digitPercentEnd u ||
  containsSub "CASH".toList u || containsSub "CREDIT".toList u || containsSub "DEBIT".toList u ||
  containsSub "CHANGE".toList u || startsWithSub "BALANCE".toList u ||
  containsSub "VISA".toList u || containsSub "MASTERCARD".toList u || containsSub "AMEX".toList u ||
  containsSub "APPROVED".toList u || containsSub "ACTIVATED".toList u ||
  pcCardStart u ||
  startsWithSub "ACCT:".toList u || startsWithSub "REFERENCE".toList u ||
  containsSub "THANK YOU".toList u || containsSub "WELCOME".toList u ||
  containsSub "RECEIPT".toList u || containsSub "TRANSACTION".toList u ||
  containsSub "POINTS".toList u || containsSub "REWARDS".toList u ||
  containsSub "EARNED".toList u ||
  decide (u = "SAVED".toList) || startsWithSub "YOU SAVED".toList u ||
  startsWithSub "CARD".toList u ||
  containsSub "AUTH".toList u ||
  searchGap "REF".toList false "#".toList u || searchGap "SLIP".toList false "#".toList u ||
  startsWithSub "TILL".toList u || containsSub "CASHIER".toList u ||
  wordSearch "STORE".toList u ||
  startsWithSub "PHONE".toList u || containsSub "ADDRESS".toList u ||
  containsSub "SIGNATURE".toList u ||
  containsSub "MERCHANT".toList u ||
  decide (u = "QTY".toList) || decide (u = "UNIT".toList) || decide (u = "SAV".toList) ||
  searchGap "ITEM".toList true "COUNT".toList u ||
  searchGap3 "NUMBER".toList "OF".toList "ITEMS".toList u ||
  containsSub "XXXX".toList u ||
  startsWithSub "CAD".toList u ||
  containsSub "VERIFIED".toList u ||
  decide (u = "PIN".toList) ||
  searchGap "CUSTOMER".toList true "COPY".toList u ||
  endsWithSub "COPY".toList u ||
  containsSub "OPTIMUM".toList u ||
  containsSub "REDEEMED".toList u

/-- `(\d+\.\d{2})(-?)\s*[HhTtJj]?\s*$` attempted at the start of `s`:
cents of group 1 and whether the discount dash was present. -/
def priceAt (s : List Char) : Option (Int × Bool) :=
  let ds := s.takeWhile Char.isDigit
  if ds.isEmpty then none
  else
    match s.drop ds.length with
    | '.' :: d1 :: d2 :: r2 =>
      if d1.isDigit && d2.isDigit then
        let cents : Int := ((natFromDigits ds) * 100 + natFromDigits [d1, d2] : Nat)
        let (neg, r3) := match r2 with
          | '-' :: t => (true, t)
          | _ => (false, r2)
        let r4 := r3.dropWhile Char.isWhitespace
        let r5 := match r4 with
          | c :: t => if isTaxChar c then t else r4
          | [] => r4
        if (r5.dropWhile Char.isWhitespace).isEmpty then some (cents, neg) else none
      else none
    | _ => none

/-- `re.search` of the trailing price pattern: leftmost match position
(`match.start()`) with the parsed cents and discount flag. -/
def priceSearchGo : List Char → Nat → Option (Int × Bool × Nat)
  | [], _ => none
  | c :: rest, idx =>
    match priceAt (c :: rest) with
    | some (p, n) => some (p, n, idx)
    | none => priceSearchGo rest (idx + 1)

def priceSearch (s : List Char) : Option (Int × Bool × Nat) := priceSearchGo s 0

/-- `\d+\.\d{2}\s*[HhTtJj]?\s*$` anchored at the start of `s` (no dash). -/
def priceEndNoDashAt (s : List Char) : Bool :=
  let ds := s.takeWhile Char.isDigit
  if ds.isEmpty then false
  else
    match s.drop ds.length with
    | '.' :: d1 :: d2 :: r2 =>
      if d1.isDigit && d2.isDigit then
        let r4 := r2.dropWhile Char.isWhitespace
        let r5 := match r4 with
          | c :: t => if isTaxChar c then t else r4
          | [] => r4
        (r5.dropWhile Char.isWhitespace).isEmpty
      else false
    | _ => false

/-- `re.search(r"\d+\.\d{2}\s*[HhTtJj]?\s*$", s)` as a Bool. -/
def trailingPriceNoDash : List Char → Bool
  | [] => false
  | c :: rest => priceEndNoDashAt (c :: rest) || trailingPriceNoDash rest

/-- `re.search(r"\s+\d+\.\d{2}\s*[HhTtJj]?\s*$", s)`: a trailing price
preceded by whitespace. -/
def hasTrailingTotal : List Char → Bool
  | [] => false
  | c :: rest =>
    (c.isWhitespace && priceEndNoDashAt (rest.dropWhile Char.isWhitespace)) ||
      hasTrailingTotal rest

/-- Length of a `\d+\.\d{2}` token at the start of `s`, if any. -/
def priceTokenLen (s : List Char) : Option Nat :=
  let ds := s.takeWhile Char.isDigit
  if ds.isEmpty then none
  else
    match s.drop ds.length with
    | '.' :: d1 :: d2 :: _ => if d1.isDigit && d2.isDigit then some (ds.length + 3) else none
    | _ => none

/-- `len(re.findall(r"(\d+\.\d{2})", s))`: non-overlapping token count. -/
def countPriceTokensGo : Nat → List Char → Nat
  | 0, _ => 0
  | fuel + 1, s =>
    match s with
    | [] => 0
    | c :: rest =>
      match priceTokenLen (c :: rest) with
      | some len => 1 + countPriceTokensGo fuel ((c :: rest).drop len)
      | none => countPriceTokensGo fuel rest

def countPriceTokens (s : List Char) : Nat := countPriceTokensGo s.length s

/-- `^\d+$`. -/
def allDigits (s : List Char) : Bool := !s.isEmpty && s.all Char.isDigit

/-- `^[\d.]+$`. -/
def allDigitsDot (s : List Char) : Bool := !s.isEmpty && s.all (fun c => c.isDigit || c = '.')

/-- `^[\d.]+\s*[HhTtJj]?\s*$`: a bare price/number line. -/
def priceLikeLine (s : List Char) : Bool :=
  let run := s.takeWhile (fun c => c.isDigit || c = '.')
  if run.isEmpty then false
  else
    let r := (s.drop run.length).dropWhile Char.isWhitespace
    let r2 := match r with
      | c :: t => if isTaxChar c then t else r
      | [] => r
    (r2.dropWhile Char.isWhitespace).isEmpty

/-- `^\d{8,}$`. -/
def longCodeLine (s : List Char) : Bool := s.length ≥ 8 && s.all Char.isDigit

/-- `^\d{8,}\s*$`. -/
def longCodeLineWs (s : List Char) : Bool :=
  let ds := s.takeWhile Char.isDigit
  ds.length ≥ 8 && (s.drop ds.length).all Char.isWhitespace

/-- `re.sub(r"^\d{8,}\s*", "", s)`: drop a long leading item code. -/
def stripLeadingLongCode (s : List Char) : List Char :=
  let ds := s.takeWhile Char.isDigit
  if ds.length ≥ 8 then (s.drop ds.length).dropWhile Char.isWhitespace else s

/-- `re.sub(r"^\d+\s*", "", s)`: drop any leading digits (for the alpha
ratio). -/
def stripLeadingDigitsWs (s : List Char) : List Char :=
  let ds := s.takeWhile Char.isDigit
  if ds.isEmpty then s else (s.drop ds.length).dropWhile Char.isWhitespace

/-- `^\$\d+\.\d{2}` prefix (unit-price info lines). -/
def dollarPriceStart (s : List Char) : Bool :=
  match s with
  | '$' :: rest =>
    let ds := rest.takeWhile Char.isDigit
    if ds.isEmpty then false
    else
      match rest.drop ds.length with
      | '.' :: d1 :: d2 :: _ => d1.isDigit && d2.isDigit
      | _ => false
  | _ => false

/-- `^\$?\d+\.\d{2}\s*[HhTtJj]?\s*$`: a standalone price line. -/
def standalonePriceLine (s : List Char) : Bool :=
  match s with
  | '$' :: rest => priceEndNoDashAt rest
  | _ => priceEndNoDashAt s

/-- `^\([^)]*\)?$`: a parenthetical code line (closing paren optional). -/
def parenOnlyLine (s : List Char) : Bool :=
  match s with
  | '(' :: rest =>
    (match rest.reverse with
     | ')' :: core => core.all (fun c => c ≠ ')')
     | _ => rest.all (fun c => c ≠ ')'))
  | _ => false

/-- `^\([^)]*\)$`. -/
def parenClosedLine (s : List Char) : Bool :=
  match s with
  | '(' :: rest =>
    (match rest.reverse with
     | ')' :: core => core.all (fun c => c ≠ ')')
     | _ => false)
  | _ => false

/-- `s.startswith("(") and not s.endswith(")")`. -/
def openParenNoClose (s : List Char) : Bool :=
  match s with
  | '(' :: _ =>
    (match s.reverse with
     | ')' :: _ => false
     | _ => true)
  | _ => false

/-- The `\s*<?\s*ON\s*SALE` tail shared by the promo patterns (on an
uppercased string). -/
def onSaleTail (r : List Char) : Bool :=
  let r1 := r.dropWhile Char.isWhitespace
  let r2 := match r1 with
    | '<' :: t => t
    | _ => r1
  let r3 := r2.dropWhile Char.isWhitespace
  if Categories.isPrefixAt ['O', 'N'] r3 then
    let r4 := (r3.drop 2).dropWhile Char.isWhitespace
    Categories.isPrefixAt ['S', 'A', 'L', 'E'] r4
  else false

/-- `^\([^)]*\)\s*<?\s*ON\s*SALE` (case-insensitive; call on uppercase). -/
def onSaleParenAny (s : List Char) : Bool :=
  match s with
  | '(' :: rest =>
    let seg := rest.takeWhile (fun c => c ≠ ')')
    (match rest.drop seg.length with
     | ')' :: r => onSaleTail r
     | _ => false)
  | _ => false

/-- `^\([#\w]*\)\s*<?\s*ON\s*SALE` (case-insensitive; call on uppercase). -/
def onSaleParenWord (s : List Char) : Bool :=
  match s with
  | '(' :: rest =>
    let seg := rest.takeWhile (fun c => Formatter.isWordChar c || c = '#')
    (match rest.drop seg.length with
     | ')' :: r => onSaleTail r
     | _ => false)
  | _ => false

/-- `re.sub(r"^\(\d+\)\s*", "", s)`. -/
def stripParenQty (s : List Char) : List Char :=
  match s with
  | '(' :: rest =>
    let ds := rest.takeWhile Char.isDigit
    if ds.isEmpty then s
    else
      match rest.drop ds.length with
      | ')' :: r => r.dropWhile Char.isWhitespace
      | _ => s
  | _ => s

/-- `re.sub(r"^\d{6,}\s*", "", s)`. -/
def stripLeadingSku (s : List Char) : List Char :=
  let ds := s.takeWhile Char.isDigit
  if ds.length ≥ 6 then (s.drop ds.length).dropWhile Char.isWhitespace else s

/-- `_strip_leading_receipt_codes`. -/
def strip_leading_receipt_codes (text : List Char) : List Char :=
  if text.isEmpty then text
  else Writer.pyStrip (stripLeadingSku (stripParenQty (Writer.pyStrip text)))

/-- The `SECTION_HEADERS` set. -/
def SECTION_HEADERS : List (List Char) :=
  ["MEAT".toList, "SEAFOOD".toList, "PRODUCE".toList, "DELI".toList,
   "GROCERY".toList, "BAKERY".toList, "FROZEN".toList]

/-- `re.sub(r"\s+", " ", s)` (the flag records whether the previous character
was inside a whitespace run). -/
def collapseWsGo : Bool → List Char → List Char
  | _, [] => []
  | prevWs, c :: rest =>
    if c.isWhitespace then
      if prevWs then collapseWsGo true rest
      else ' ' :: collapseWsGo true rest
    else c :: collapseWsGo false rest

def collapseWs (s : List Char) : List Char := collapseWsGo false s

/-- `SECTION_HEADER_WITH_AISLE`: `^\d{1,2}\s*[-:]\s*[A-Z]{3,}$`. -/
def aisleHeaderFull (s : List Char) : Bool :=
  let ds := s.takeWhile Char.isDigit
  if ds.isEmpty ∨ 2 < ds.length then false
  else
    let r := (s.drop ds.length).dropWhile Char.isWhitespace
    match r with
    | c :: r2 =>
      if c = '-' ∨ c = ':' then
        let r3 := r2.dropWhile Char.isWhitespace
        let letters := r3.takeWhile Char.isUpper
        3 ≤ letters.length ∧ (r3.drop letters.length).isEmpty
      else false
    | [] => false

/-- `SECTION_AISLE_PREFIX`: `^\d{1,2}\s*[-:]`. -/
def aisleStart (s : List Char) : Bool :=
  let ds := s.takeWhile Char.isDigit
  if ds.isEmpty ∨ 2 < ds.length then false
  else
    match (s.drop ds.length).dropWhile Char.isWhitespace with
    | c :: _ => c = '-' ∨ c = ':'
    | [] => false

/-- `re.findall(r"[A-Z]+", s)`: maximal uppercase runs (the first argument
accumulates the current run, reversed). -/
def upperRunsGo : List Char → List Char → List (List Char)
  | cur, [] => if cur.isEmpty then [] else [cur.reverse]
  | cur, c :: rest =>
    if c.isUpper then upperRunsGo (c :: cur) rest
    else if cur.isEmpty then upperRunsGo [] rest
    else cur.reverse :: upperRunsGo [] rest

def upperRuns (s : List Char) : List (List Char) := upperRunsGo [] s

/-- `_is_section_header_text`. -/
def is_section_header_text (text : List Char) : Bool :=
  if text.isEmpty then false
  else
    let normalized := collapseWs (Categories.upperList (Writer.pyStrip text))
    SECTION_HEADERS.contains normalized ||
    aisleHeaderFull normalized ||
    (aisleStart normalized && (upperRuns normalized).any (fun t => SECTION_HEADERS.contains t))

/-- The anchored alternation of `SUMMARY_PATTERNS` (minus its `SUB\s*TOTAL`
head, handled separately). -/
def summaryStartTokens : List (List Char) :=
  ["SUBTOTAL".toList, "TOTAL".toList, "HST".toList, "GST".toList, "PST".toList,
   "TAX".toList, "MASTER".toList, "VISA".toList, "DEBIT".toList, "CREDIT".toList,
   "POINTS".toList, "CASH".toList, "CHANGE".toList, "BALANCE".toList,
   "APPROVED".toList, "CARD".toList, "TERMINAL".toList, "MEMBER".toList]

/-- `_looks_like_summary_line`. -/
def looks_like_summary_line (text : List Char) : Bool :=
  if text.isEmpty then false
  else
    let upper := Writer.pyStrip (Categories.upperList text)
    (matchGapAt "SUB".toList false "TOTAL".toList upper ||
      summaryStartTokens.any (fun t => Categories.isPrefixAt t upper)) ||
    containsSub "SUBTOTAL".toList upper || containsSub "SUB TOTAL".toList upper ||
    containsSub "TOTAL".toList upper ||
    (wordSearch "HST".toList upper || wordSearch "GST".toList upper ||
      wordSearch "PST".toList upper || wordSearch "TAX".toList upper) ||
    (Categories.isPrefixAt "H=".toList upper &&
      (containsSub "HST".toList upper || containsSub "GST".toList upper ||
        containsSub "PST".toList upper || containsSub "TAX".toList upper))

/-- A parsed quantity/weight modifier (`_parse_quantity_modifier`).  The
`unit_price = total / qty` stored for multi-buy deals is omitted: nothing in
the item path ever reads it (validation uses `deal_price`). -/
inductive QuantityModifier where
  | count_at_price (quantity : Nat) (unit_price : Int) (raw_line : List Char)
  | weight_at_price (weight : List Char) (raw_line : List Char)
  | multi_for_price (quantity : Nat) (deal_price : Int) (raw_line : List Char)
deriving DecidableEq, Repr

/-- `\d+\.\d{2}` at the start of `s`: cents and the rest. -/
def parseCentsAt (s : List Char) : Option (Int × List Char) :=
  let ds := s.takeWhile Char.isDigit
  if ds.isEmpty then none
  else
    match s.drop ds.length with
    | '.' :: d1 :: d2 :: r =>
      if d1.isDigit && d2.isDigit then
        some (((natFromDigits ds) * 100 + natFromDigits [d1, d2] : Nat), r)
      else none
    | _ => none

/-- `^(\d+)\s*@\s*\$?(\d+\.\d{2})`: quantity and unit price. -/
def countAtPriceMatch (l : List Char) : Option (Nat × Int) :=
  let ds := l.takeWhile Char.isDigit
  if ds.isEmpty then none
  else
    let r := (l.drop ds.length).dropWhile Char.isWhitespace
    match r with
    | '@' :: r2 =>
      let r3 := r2.dropWhile Char.isWhitespace
      let r4 := match r3 with
        | '$' :: t => t
        | _ => r3
      match parseCentsAt r4 with
      | some (cents, _) => some (natFromDigits ds, cents)
      | none => none
    | _ => none

/-- `\s*(lb|lk|kg|k9|1b|1k)\s*@` (case-insensitive) at the start of `l`. -/
def tryUnitAt (l : List Char) : Bool :=
  let r := l.dropWhile Char.isWhitespace
  match r with
  | a :: b :: rest =>
    (([a.toUpper, b.toUpper] == "LB".toList) || ([a.toUpper, b.toUpper] == "LK".toList) ||
     ([a.toUpper, b.toUpper] == "KG".toList) || ([a.toUpper, b.toUpper] == "K9".toList) ||
     ([a.toUpper, b.toUpper] == "1B".toList) || ([a.toUpper, b.toUpper] == "1K".toList)) &&
    (match rest.dropWhile Char.isWhitespace with
     | '@' :: _ => true
     | _ => false)
  | _ => false

/-- Weight-group candidates that consumed the decimal point, trying the
longest fraction first (`\d*` is greedy). -/
def weightDotCands (ds1 r2 : List Char) : Nat → Option (List Char)
  | 0 => if tryUnitAt r2 then some (ds1 ++ ['.']) else none
  | k + 1 =>
    if tryUnitAt (r2.drop (k + 1)) then some (ds1 ++ '.' :: r2.take (k + 1))
    else weightDotCands ds1 r2 k

/-- Weight-group candidates without the decimal point, trying the longest
digit run first (`\d+` is greedy; shorter runs matter because the `1b`/`1k`
units start with a digit). -/
def weightNoDotCands (ds1 r1 : List Char) : Nat → Option (List Char)
  | 0 => none
  | q + 1 =>
    if tryUnitAt (ds1.drop (q + 1) ++ r1) then some (ds1.take (q + 1))
    else weightNoDotCands ds1 r1 q

/-- `^(\d+\.?\d*)\s*(?:lb|lk|kg|k[g9]|1b|1k)\s*@`: the captured weight. -/
def weightAtMatch (l : List Char) : Option (List Char) :=
  let ds1 := l.takeWhile Char.isDigit
  if ds1.isEmpty then none
  else
    let r1 := l.drop ds1.length
    let withDot := match r1 with
      | '.' :: r2 => weightDotCands ds1 r2 (r2.takeWhile Char.isDigit).length
      | _ => none
    match withDot with
    | some w => some w
    | none => weightNoDotCands ds1 r1 ds1.length

/-- `^\(?(\d+)\s*/\s*for\s+\$?(\d+\.\d{2})\)?` (`for` is case-sensitive):
quantity and deal total. -/
def multiForMatch (l : List Char) : Option (Nat × Int) :=
  let l1 := match l with
    | '(' :: t => t
    | _ => l
  let ds := l1.takeWhile Char.isDigit
  if ds.isEmpty then none
  else
    let r := (l1.drop ds.length).dropWhile Char.isWhitespace
    match r with
    | '/' :: r2 =>
      let r3 := r2.dropWhile Char.isWhitespace
      if Categories.isPrefixAt "for".toList r3 then
        let r4 := r3.drop 3
        let r5 := r4.dropWhile Char.isWhitespace
        if r4.length != r5.length then
          let r6 := match r5 with
            | '$' :: t => t
            | _ => r5
          match parseCentsAt r6 with
          | some (cents, _) => some (natFromDigits ds, cents)
          | none => none
        else none
      else none
    | _ => none

/-- `_parse_quantity_modifier`: the three patterns in source order. -/
def parse_quantity_modifier (line0 : List Char) : Option QuantityModifier :=
  let line := Writer.pyStrip line0
  match countAtPriceMatch line with
  | some (q, cents) => some (.count_at_price q cents line)
  | none =>
    match weightAtMatch line with
    | some w => some (.weight_at_price w line)
    | none =>
      match multiForMatch line with
      | some (q, cents) => some (.multi_for_price q cents line)
      | none => none

/-- `_validate_quantity_price` with the default `$0.02` tolerance
(2 cents, exact). -/
def validate_quantity_price (total_price : Int) (m : QuantityModifier) : Bool :=
  match m with
  | .count_at_price q unit _ => ((q : Int) * unit - total_price).natAbs ≤ 2
  | .multi_for_price _ deal _ => (deal - total_price).natAbs ≤ 2
  | .weight_at_price _ _ => true

/-- `modifier.get("quantity", 1)`. -/
def modQuantity : QuantityModifier → Nat
  | .count_at_price q _ _ => q
  | .multi_for_price q _ _ => q
  | .weight_at_price _ _ => 1

/-- `^\d+\s*/\s*for\b` (case-insensitive). -/
def qtySlashForStart (s : List Char) : Bool :=
  let ds := s.takeWhile Char.isDigit
  if ds.isEmpty then false
  else
    let r := (s.drop ds.length).dropWhile Char.isWhitespace
    match r with
    | '/' :: r2 =>
      let r3 := r2.dropWhile Char.isWhitespace
      (match r3 with
       | f :: o :: rr :: rest =>
         f.toUpper = 'F' && o.toUpper = 'O' && rr.toUpper = 'R' &&
         (match rest with
          | c :: _ => !(Formatter.isWordChar c)
          | [] => true)
       | _ => false)
    | _ => false

/-- `^\d+\s*@\s*\d+\s*/\s*\$?\d+\.\d{2}\b` (case-insensitive). -/
def qtyAtSlashStart (s : List Char) : Bool :=
  let ds := s.takeWhile Char.isDigit
  if ds.isEmpty then false
  else
    let r := (s.drop ds.length).dropWhile Char.isWhitespace
    match r with
    | '@' :: r2 =>
      let r3 := r2.dropWhile Char.isWhitespace
      let ds2 := r3.takeWhile Char.isDigit
      if ds2.isEmpty then false
      else
        let r4 := (r3.drop ds2.length).dropWhile Char.isWhitespace
        match r4 with
        | '/' :: r5 =>
          let r6 := r5.dropWhile Char.isWhitespace
          let r7 := match r6 with
            | '$' :: t => t
            | _ => r6
          match parseCentsAt r7 with
          | some (_, rest) =>
            (match rest with
             | c :: _ => !(Formatter.isWordChar c)
             | [] => true)
          | none => false
        | _ => false
    | _ => false

/-- `^\(\d+\s*/\s*for\s+\$[\d.]+\)` (`for` case-sensitive). -/
def parenSlashForQty (s : List Char) : Bool :=
  match s with
  | '(' :: r =>
    let ds := r.takeWhile Char.isDigit
    if ds.isEmpty then false
    else
      let r2 := (r.drop ds.length).dropWhile Char.isWhitespace
      match r2 with
      | '/' :: r3 =>
        let r4 := r3.dropWhile Char.isWhitespace
        if Categories.isPrefixAt "for".toList r4 then
          let r5 := r4.drop 3
          let r6 := r5.dropWhile Char.isWhitespace
          if r5.length != r6.length then
            match r6 with
            | '$' :: r7 =>
              let run := r7.takeWhile (fun c => c.isDigit || c = '.')
              if run.isEmpty then false
              else
                (match r7.drop run.length with
                 | ')' :: _ => true
                 | _ => false)
            | _ => false
          else false
        else false
      | _ => false
  | _ => false

/-- `^\([^)]+\)\s+\d+\s*/\s*for\b` (case-insensitive). -/
def parenThenSlashFor (s : List Char) : Bool :=
  match s with
  | '(' :: r =>
    let seg := r.takeWhile (fun c => c ≠ ')')
    if seg.isEmpty then false
    else
      match r.drop seg.length with
      | ')' :: r2 =>
        let r3 := r2.dropWhile Char.isWhitespace
        if r2.length = r3.length then false
        else qtySlashForStart r3
      | _ => false
  | _ => false

/-- `_looks_like_quantity_expression`. -/
def looks_like_quantity_expression (text0 : List Char) : Bool :=
  let text := Writer.pyStrip text0
  if text.isEmpty then false
  else if (parse_quantity_modifier text).isSome then true
  else
    qtySlashForStart text || qtyAtSlashStart text || parenSlashForQty text ||
      parenThenSlashFor text

/-- `alpha_ratio >= 0.5` (and nonempty), computed exactly. -/
def alphaRatioAtLeastHalf (s : List Char) : Bool :=
  !s.isEmpty && s.length ≤ 2 * (s.filter Char.isAlpha).length

/-- The `total_line_idx` scan: first line with `\bTOTAL\b` (case-insensitive)
whose uppercase does not contain `SUBTOTAL`. -/
def findTotalIdx : List (List Char) → Nat → Option Nat
  | [], _ => none
  | l :: rest, i =>
    let u := Categories.upperList l
    if wordSearch "TOTAL".toList u && !containsSub "SUBTOTAL".toList u then some i
    else findTotalIdx rest (i + 1)

/-- `", ".join(...)`. -/
def joinComma (ls : List (List Char)) : List Char := List.intercalate ", ".toList ls

/-- The backward description search (`for j in range(i-1, max(i-6,-1), -1)`),
walking the given index list and accumulating the raw quantity lines and the
parsed modifiers; returns `(found_desc, qty_info, qty_modifiers)`. -/
def backwardGo (lines : List (List Char)) :
    List Nat → List (List Char) → List QuantityModifier →
    (Option (List Char) × List (List Char) × List QuantityModifier)
  | [], qty_info, qty_mods => (none, qty_info, qty_mods)
  | j :: js, qty_info, qty_mods =>
    let prev := Writer.pyStrip (lines.getD j [])
    if priceLikeLine prev then backwardGo lines js qty_info qty_mods
    else if longCodeLine prev then backwardGo lines js qty_info qty_mods
    else if skipRegexSearch prev then backwardGo lines js qty_info qty_mods
    else
      match parse_quantity_modifier prev with
      | some m => backwardGo lines js (qty_info ++ [prev]) (qty_mods ++ [m])
      | none =>
        if looks_like_quantity_expression prev then
          backwardGo lines js (qty_info ++ [prev]) qty_mods
        else if dollarPriceStart prev then backwardGo lines js qty_info qty_mods
        else if parenClosedLine prev then backwardGo lines js qty_info qty_mods
        else if openParenNoClose prev then backwardGo lines js qty_info qty_mods
        else if onSaleParenAny (Categories.upperList prev) then
          backwardGo lines js qty_info qty_mods
        else if parenSlashForQty prev then backwardGo lines js qty_info qty_mods
        else if prev.length ≤ 3 then backwardGo lines js qty_info qty_mods
        else if !alphaRatioAtLeastHalf (stripLeadingDigitsWs prev) then
          backwardGo lines js qty_info qty_mods
        else if 2 < prev.length && !allDigitsDot prev then (some prev, qty_info, qty_mods)
        else backwardGo lines js qty_info qty_mods

/-- The priced-section-header lookahead for a description
(`for j in range(i+1, min(i+5, len(lines)))`). -/
def lookaheadDesc (lines : List (List Char)) : List Nat → Option (List Char)
  | [] => none
  | j :: js =>
    let next := Writer.pyStrip (lines.getD j [])
    if next.isEmpty then lookaheadDesc lines js
    else if skipRegexSearch next then lookaheadDesc lines js
    else if looks_like_summary_line next then lookaheadDesc lines js
    else if looks_like_quantity_expression next then lookaheadDesc lines js
    else if (priceSearch next).isSome then lookaheadDesc lines js
    else if standalonePriceLine next then lookaheadDesc lines js
    else if longCodeLineWs next then lookaheadDesc lines js
    else
      let cleaned := strip_leading_receipt_codes next
      if cleaned.isEmpty then lookaheadDesc lines js
      else if is_section_header_text cleaned then lookaheadDesc lines js
      else if !alphaRatioAtLeastHalf cleaned then lookaheadDesc lines js
      else some cleaned

/-- The priced-section-header price lookahead
(`for j in range(i+1, min(i+4, len(lines)))`): examines only the first
nonempty line; `true` means the header's price row is metadata to skip. -/
def headerPriceLookahead (lines : List (List Char)) (price : Int) :
    List Nat → Bool
  | [] => false
  | j :: js =>
    let next := Writer.pyStrip (lines.getD j [])
    if next.isEmpty then headerPriceLookahead lines price js
    else if looks_like_summary_line next then false
    else
      match priceSearch next with
      | some (c, n, _) => (if n then -c else c) = price
      | none => false

/-- The `if found_desc:` item assembly: a validated modifier drives the
quantity (plus a weight annotation); a failed validation appends the reversed
raw quantity lines in parentheses and leaves quantity 1. -/
def assembleItem (categorize : List Char → Option String) (price : Int)
    (found : List Char) (qty_info : List (List Char))
    (qty_mods : List QuantityModifier) : ReceiptItem :=
  match qty_mods with
  | m :: _ =>
    if validate_quantity_price price m then
      let suffix := match m with
        | .weight_at_price w _ => " (".toList ++ w ++ " lb)".toList
        | _ => []
      { description := String.mk (found ++ suffix), price := centsToRat price,
        quantity := modQuantity m, category := categorize found }
    else
      { description := String.mk (found ++ " (".toList ++ joinComma qty_info.reverse ++ [')']),
        price := centsToRat price, quantity := 1, category := categorize found }
  | [] =>
    if qty_info.isEmpty then
      { description := String.mk found, price := centsToRat price, quantity := 1,
        category := categorize found }
    else
      { description := String.mk (found ++ " (".toList ++ joinComma qty_info.reverse ++ [')']),
        price := centsToRat price, quantity := 1, category := categorize found }

/-- One iteration of the main loop of `_extract_items` on line `i`:
`some item` when the line yields an item (warning-only outcomes are `none`). -/
def processLine (lines : List (List Char)) (summary_amounts : List Int)
    (categorize : List Char → Option String) (i : Nat) (line : List Char) :
    Option ReceiptItem :=
  if skipRegexSearch line then none
  else if line.length < 3 then none
  else if allDigits line then none
  else if looks_like_quantity_expression line && !hasTrailingTotal line then none
  else if parenOnlyLine line && !trailingPriceNoDash line then none
  else
    match priceSearch line with
    | none => none
    | some (cents, neg, mstart) =>
      let price : Int := if neg then -cents else cents
      let u := Categories.upperList line
      if (containsSub "REG$".toList u || containsSub "@REG".toList u) &&
          decide (1 < countPriceTokens line) && decide (0 < i) &&
          trailingPriceNoDash (lines.getD (i - 1) []) then none
      else if containsSub "TOTAL".toList u || containsSub "SUBTOTAL".toList u ||
          containsSub "SUB TOTAL".toList u then none
      else if decide (0 < i) && summary_amounts.contains cents &&
          (let pu := Categories.upperList (lines.getD (i - 1) [])
           containsSub "TOTAL".toList pu || containsSub "SUBTOTAL".toList pu ||
             containsSub "SUB TOTAL".toList pu) then none
      else
        let desc0 := Writer.pyStrip (line.take mstart)
        let force_backward := containsSub "REG$".toList u || containsSub "@REG".toList u
        let desc1 := if desc0.isEmpty then desc0 else stripLeadingLongCode desc0
        let is_header := !desc1.isEmpty && is_section_header_text desc1
        let desc_part := if is_header then [] else desc1
        if is_header &&
            headerPriceLookahead lines price
              (List.range' (i + 1) (min 3 (lines.length - (i + 1)))) then none
        else
          let is_qty_expr := !desc_part.isEmpty &&
            (looks_like_quantity_expression desc_part ||
              onSaleParenWord (Categories.upperList desc_part))
          if !desc_part.isEmpty && decide (2 < desc_part.length) && !is_qty_expr &&
              !force_backward then
            some { description := String.mk desc_part, price := centsToRat price,
                   quantity := 1, category := categorize desc_part }
          else
            let fd0 := if is_header then
                lookaheadDesc lines (List.range' (i + 1) (min 4 (lines.length - (i + 1))))
              else none
            if is_header && fd0.isNone then none
            else
              let found_info := if fd0.isNone then
                  backwardGo lines ((List.range i).reverse.take 5) [] []
                else (fd0, [], [])
              match found_info.1 with
              | none => none
              | some found =>
                some (assembleItem categorize price found found_info.2.1 found_info.2.2)

/-- The indexed main loop (`break` once past the TOTAL line). -/
def extractGo (lines : List (List Char)) (summary_amounts : List Int)
    (categorize : List Char → Option String) (tIdx : Option Nat) :
    Nat → Nat → List ReceiptItem
  | _, 0 => []
  | i, fuel + 1 =>
    if (match tIdx with | some t => decide (t < i) | none => false) then []
    else
      match lines[i]? with
      | none => []
      | some line =>
        match processLine lines summary_amounts categorize i line with
        | some it => it :: extractGo lines summary_amounts categorize tIdx (i + 1) fuel
        | none => extractGo lines summary_amounts categorize tIdx (i + 1) fuel

/-- `_extract_items(lines, summary_amounts)` with `categorize_item` passed in
as an opaque function of the description. -/
def extract_items (lines0 : List String) (summary_amounts : List Int)
    (categorize : List Char → Option String) : List ReceiptItem :=
  let lines := lines0.map String.toList
  extractGo lines summary_amounts categorize (findTotalIdx lines 0) 0 lines.length

/-- The C4 failing input: a minimal receipt whose TAX line carries its amount
on the same line. -/
def c4Lines : List String := ["MILK 3.00", "TAX 0.65", "TOTAL 3.65"]

/-- Its summary amounts (total 3.65 and tax 0.65), in cents. -/
def c4Summary : List Int := [365, 65]

/-- C4: the claim says TAX lines are always excluded from itemization, but the
text strategy's skip list only matches `^TAX$` (a lone TAX token), so the line
`"TAX 0.65"` survives every filter (its amount is in `summary_amounts`, but
that check only fires when the preceding line mentions TOTAL) and is emitted
as a regular item `{description := "TAX", price := 0.65}`.  This evaluates the
embedded extractor on the failing input and exhibits the TAX item. -/
theorem C4_tax_line_becomes_item :
    (extract_items c4Lines c4Summary (fun _ => none)).map ReceiptItem.description =
      ["MILK", "TAX"] ∧
    extract_items c4Lines c4Summary (fun _ => none) =
      [⟨"MILK", centsToRat 300, 1, none⟩, ⟨"TAX", centsToRat 65, 1, none⟩] := by
  exact ⟨by decide, rfl⟩

/-- The C5 example lines. -/
def c5Lines : List String := ["MILK", "3 @ $1.99", "5.97"]

def c5ModLine : List Char := "3 @ $1.99".toList

def c5MilkDesc : List Char := "MILK".toList

/-- C5: a quantity modifier found in the backward search sets the recorded
quantity only when it validates against the matched price within 2 cents;
otherwise the raw modifier text is appended to the description in parentheses
and the quantity stays 1.  Concretely: the modifier line `"3 @ $1.99"` parses
to `count_at_price 3 $1.99`, and the lines `"MILK"`, `"3 @ $1.99"`, `"5.97"`
yield exactly `{description := MILK, price := 5.97, quantity := 3}`. -/
theorem C5_quantity_modifier_validation :
    (∀ (categorize : List Char → Option String) (price : Int) (found : List Char)
       (qty_info : List (List Char)) (m : QuantityModifier) (rest : List QuantityModifier),
       (validate_quantity_price price m = true →
         (assembleItem categorize price found qty_info (m :: rest)).quantity =
           modQuantity m) ∧
       (validate_quantity_price price m = false →
         (assembleItem categorize price found qty_info (m :: rest)).quantity = 1 ∧
         (assembleItem categorize price found qty_info (m :: rest)).description =
           String.mk (found ++ " (".toList ++ joinComma qty_info.reverse ++ [')']))) ∧
    parse_quantity_modifier c5ModLine = some (.count_at_price 3 199 c5ModLine) ∧
    extract_items c5Lines [] (fun _ => none) =
      [⟨"MILK", centsToRat 597, 3, none⟩] := by
  refine ⟨?_, by decide, rfl⟩
  intro categorize price found qty_info m rest
  constructor
  · intro h
    cases m <;> simp [assembleItem, h, modQuantity]
  · intro h
    simp [assembleItem, h]

/-- C5 witness: the `"3 @ $1.99"` modifier validates against 5.97 and drives
quantity 3; against 6.00 it fails (off by 3 cents), the quantity stays 1 and
the raw text is parenthesized into the description. -/
theorem C5_witness :
    validate_quantity_price 597 (.count_at_price 3 199 c5ModLine) = true ∧
    (assembleItem (fun _ => none) 597 c5MilkDesc [c5ModLine]
      [.count_at_price 3 199 c5ModLine]).quantity = 3 ∧
    validate_quantity_price 600 (.count_at_price 3 199 c5ModLine) = false ∧
    (assembleItem (fun _ => none) 600 c5MilkDesc [c5ModLine]
      [.count_at_price 3 199 c5ModLine]).quantity = 1 ∧
    (assembleItem (fun _ => none) 600 c5MilkDesc [c5ModLine]
      [.count_at_price 3 199 c5ModLine]).description = "MILK (3 @ $1.99)" := by
  refine ⟨by decide, ?_, by decide, ?_, ?_⟩
  · exact ((C5_quantity_modifier_validation.1 (fun _ => none) 597 c5MilkDesc [c5ModLine]
      (.count_at_price 3 199 c5ModLine) []).1 (by decide)).trans (by decide)
  · exact ((C5_quantity_modifier_validation.1 (fun _ => none) 600 c5MilkDesc [c5ModLine]
      (.count_at_price 3 199 c5ModLine) []).2 (by decide)).1
  · exact (((C5_quantity_modifier_validation.1 (fun _ => none) 600 c5MilkDesc [c5ModLine]
      (.count_at_price 3 199 c5ModLine) []).2 (by decide)).2).trans (by decide)

end TextItems

end BB
